import Mathlib

/-!
Verification of goid: UUID version 4 generation, validation, parsing and rendering

A shallow embedding of `uuidv4.go` and `random_pool.go`.

* A Go `byte` is a `Nat`; arithmetic that can wrap carries an explicit `% 256`.
* A Go `string`, a `[]byte` and the array type `UUIDv4 = [16]byte` are lists of bytes.
* A Go `error` is `Option Error`; `none` is `nil`.
* Run-time checked index expressions (`s[i]` on a string, `hexAlphabet[n]`) return
  `Option`; `none` is the run-time panic "index out of range".
* The package variables `randomSource` and `pool` are the fields of `World`; a function
  that reads or writes them takes a `World` and returns the next one.
* An `io.Reader` is a state machine; the loop of `io.ReadAtLeast` is bounded by a fuel
  argument, and a call that panics or runs out of fuel returns a `Fault`.
-/

namespace Goid

/-! ## Constants and errors (`uuidv4.go`, lines 8-19) -/

/-- The byte `'-'`. -/
def dash : Nat := 45

/-- The string constant `"0123456789abcdef"`, as bytes. -/
def hexAlphabet : List Nat :=
  [48, 49, 50, 51, 52, 53, 54, 55, 56, 57, 97, 98, 99, 100, 101, 102]

/-- Error values: the three package errors, the sentinels of package `io`
that `io.ReadFull` can return, and any other error value a reader produces. -/
inductive Error where
  | ErrMalformedUUIDv4
  | ErrInvalidUUIDv4Version
  | ErrInvalidUUIDv4Variant
  | EOF
  | ErrUnexpectedEOF
  | ErrShortBuffer
  | other (code : Nat)
  deriving DecidableEq, Repr

/-- The array type `[16]byte`. -/
abbrev UUIDv4 := List Nat

/-- The zero value `[16]byte{}`. -/
def zeroUUID : UUIDv4 := List.replicate 16 0

/-- The built-in `copy(dst, src)`: overwrites the first `min (len dst) (len src)`
bytes of `dst`. -/
def copy (dst src : List Nat) : List Nat :=
  src.take dst.length ++ dst.drop src.length

/-! ## Validation (`uuidv4.go`, lines 48-55 and 93-101) -/

/-- Source `validateVersionVariant`: the version check precedes the variant check. -/
def validateVersionVariant (result : UUIDv4) : UUIDv4 × Option Error :=
  if result.getD 6 0 &&& 0xf0 ≠ 0x40 then
    (result, some Error.ErrInvalidUUIDv4Version)
  else if result.getD 8 0 &&& 0xc0 ≠ 0x80 ∧ result.getD 8 0 &&& 0xe0 ≠ 0xc0 then
    (result, some Error.ErrInvalidUUIDv4Variant)
  else
    (result, none)

/-- Source `FromBytes`. -/
def FromBytes (b : List Nat) : UUIDv4 × Option Error :=
  if b.length ≠ 16 then
    (zeroUUID, some Error.ErrMalformedUUIDv4)
  else
    validateVersionVariant (copy zeroUUID b)

/-! ## Parsing (`uuidv4.go`, lines 57-91 and 103-118) -/

/-- Source `parseHexNibble`; the flag `*fail` is threaded through as a value. -/
def parseHexNibble (b : Nat) (fail : Bool) : Nat × Bool :=
  if 48 ≤ b ∧ b ≤ 57 then
    (b - 48, fail)
  else if 97 ≤ b ∧ b ≤ 102 then
    (b - 97 + 10, fail)
  else if 65 ≤ b ∧ b ≤ 70 then
    (b - 65 + 10, fail)
  else
    (b, true)

/-- Source `parseHexPair`: `high` is parsed before `low`; the shift and the sum
are byte operations. -/
def parseHexPair (high low : Nat) (fail : Bool) : Nat × Bool :=
  let h := parseHexNibble high fail
  let l := parseHexNibble low h.2
  (((h.1 <<< 4) % 256 + l.1) % 256, l.2)

/-- Go's short-circuit `||` over operands that may panic. -/
def orElse (a b : Option Bool) : Option Bool :=
  a.bind fun x => if x then some true else b

/-- The guard of `ParseUUIDv4` (line 59). -/
def malformedShape (s : List Nat) : Option Bool :=
  orElse (some (s.length != 16 * 2 + 4))
    (orElse (s[8]?.map (· != dash))
      (orElse (s[13]?.map (· != dash))
        (orElse (s[18]?.map (· != dash)) (s[23]?.map (· != dash)))))

/-- The index pairs of lines 65-84: entry `k` is `(i, j)` for the statement
`result[k] = parseHexPair(s[i], s[j], &fail)`. -/
def pairPositions : List (Nat × Nat) :=
  [(0, 1), (2, 3), (4, 5), (6, 7),
   (9, 10), (11, 12),
   (14, 15), (16, 17),
   (19, 20), (21, 22),
   (24, 25), (26, 27), (28, 29), (30, 31), (32, 33), (34, 35)]

/-- Lines 65-84 run in order over a table of index pairs: every statement reads
two bytes of `s`, stores the pair's byte and passes `fail` on. -/
def parsePairs (s : List Nat) : List (Nat × Nat) → Bool → Option (List Nat × Bool)
  | [], fail => some ([], fail)
  | p :: rest, fail =>
    match s[p.1]?, s[p.2]? with
    | some high, some low =>
      match parsePairs s rest (parseHexPair high low fail).2 with
      | some r => some ((parseHexPair high low fail).1 :: r.1, r.2)
      | none => none
    | _, _ => none

/-- Source `ParseUUIDv4`. `none` is an index-out-of-range panic. -/
def ParseUUIDv4 (s : List Nat) : Option (UUIDv4 × Option Error) :=
  match malformedShape s with
  | none => none
  | some true => some (zeroUUID, some Error.ErrMalformedUUIDv4)
  | some false =>
    match parsePairs s pairPositions false with
    | none => none
    | some (result, fail) =>
      if fail then
        some (result, some Error.ErrMalformedUUIDv4)
      else
        some (validateVersionVariant result)

/-! ## Rendering (`uuidv4.go`, lines 120-162) -/

/-- The index expression `hexAlphabet[n]`. -/
def hexAt (n : Nat) : Option Nat := hexAlphabet[n]?

/-- Source `UUIDv4.String`: the 36 cells of `result` in position order; the call
panics (`none`) when one of the `hexAlphabet[...]` lookups does. -/
def UUIDv4.String (uuidv4 : UUIDv4) : Option (List Nat) :=
  List.mapM id
    [hexAt (uuidv4.getD 0 0 >>> 4), hexAt (uuidv4.getD 0 0 &&& 15),
     hexAt (uuidv4.getD 1 0 >>> 4), hexAt (uuidv4.getD 1 0 &&& 15),
     hexAt (uuidv4.getD 2 0 >>> 4), hexAt (uuidv4.getD 2 0 &&& 15),
     hexAt (uuidv4.getD 3 0 >>> 4), hexAt (uuidv4.getD 3 0 &&& 15),
     some dash,
     hexAt (uuidv4.getD 4 0 >>> 4), hexAt (uuidv4.getD 4 0 &&& 15),
     hexAt (uuidv4.getD 5 0 >>> 4), hexAt (uuidv4.getD 5 0 &&& 15),
     some dash,
     hexAt (uuidv4.getD 6 0 >>> 4), hexAt (uuidv4.getD 6 0 &&& 15),
     hexAt (uuidv4.getD 7 0 >>> 4), hexAt (uuidv4.getD 7 0 &&& 15),
     some dash,
     hexAt (uuidv4.getD 8 0 >>> 4), hexAt (uuidv4.getD 8 0 &&& 15),
     hexAt (uuidv4.getD 9 0 >>> 4), hexAt (uuidv4.getD 9 0 &&& 15),
     some dash,
     hexAt (uuidv4.getD 10 0 >>> 4), hexAt (uuidv4.getD 10 0 &&& 15),
     hexAt (uuidv4.getD 11 0 >>> 4), hexAt (uuidv4.getD 11 0 &&& 15),
     hexAt (uuidv4.getD 12 0 >>> 4), hexAt (uuidv4.getD 12 0 &&& 15),
     hexAt (uuidv4.getD 13 0 >>> 4), hexAt (uuidv4.getD 13 0 &&& 15),
     hexAt (uuidv4.getD 14 0 >>> 4), hexAt (uuidv4.getD 14 0 &&& 15),
     hexAt (uuidv4.getD 15 0 >>> 4), hexAt (uuidv4.getD 15 0 &&& 15)]

/-! ## Entropy sources (`io.Reader` and `io.ReadFull` of the Go standard library) -/

/-- Ways a call can fail to return: a run-time panic (index or slice bounds out of
range), or the iteration budget of the model of a loop is used up. -/
inductive Fault where
  | outOfRange
  | outOfFuel
  deriving DecidableEq, Repr

/-- An `io.Reader`: a state and the method `Read`. `Read st n` is a call on a buffer
`p` of `n` bytes; it yields the bytes stored at the front of `p`, the error, and the
next state. -/
structure Reader where
  σ : Type
  state : σ
  Read : σ → Nat → (List Nat × Option Error) × σ

/-- One call `r.Read(p)`: the new contents of `p`, the count `n` (at most `len(p)`),
the error, and the reader afterwards. -/
def Reader.call (r : Reader) (p : List Nat) : (List Nat × Nat × Option Error) × Reader :=
  let out := r.Read r.state p.length
  let data := out.1.1.take p.length
  ((copy p data, data.length, out.1.2), { r with state := out.2 })

/-- The loop of `io.ReadAtLeast`: `for n < min && err == nil { nn, err = r.Read(buf[n:]); n += nn }`.
The first argument after `min` bounds the number of iterations. -/
def readLoop (min : Nat) :
    Nat → Reader → List Nat → Nat → Option Error →
      Except Fault ((List Nat × Nat × Option Error) × Reader)
  | 0, r, buf, n, err =>
    if n < min ∧ err = none then Except.error Fault.outOfFuel
    else Except.ok ((buf, n, err), r)
  | fuel + 1, r, buf, n, err =>
    if n < min ∧ err = none then
      let c := r.call (buf.drop n)
      readLoop min fuel c.2 (buf.take n ++ c.1.1) (n + c.1.2.1) c.1.2.2
    else Except.ok ((buf, n, err), r)

/-- Go's `io.ReadAtLeast`. -/
def ReadAtLeast (fuel : Nat) (r : Reader) (buf : List Nat) (min : Nat) :
    Except Fault ((List Nat × Nat × Option Error) × Reader) :=
  if buf.length < min then
    Except.ok ((buf, 0, some Error.ErrShortBuffer), r)
  else
    match readLoop min fuel r buf 0 none with
    | Except.error f => Except.error f
    | Except.ok ((buf1, n, err), r1) =>
      if n ≥ min then Except.ok ((buf1, n, none), r1)
      else if n > 0 ∧ err = some Error.EOF then
        Except.ok ((buf1, n, some Error.ErrUnexpectedEOF), r1)
      else Except.ok ((buf1, n, err), r1)

/-- Go's `io.ReadFull(r, buf)`, which is `ReadAtLeast(r, buf, len(buf))`. -/
def ReadFull (fuel : Nat) (r : Reader) (buf : List Nat) :
    Except Fault ((List Nat × Nat × Option Error) × Reader) :=
  ReadAtLeast fuel r buf buf.length

/-- The test helper `byteReader{b, count}`: `Read` fills all of `p` with `b` and adds
`len(p)` to `count`. -/
def byteReaderAt (b count : Nat) : Reader :=
  { σ := Nat, state := count, Read := fun count n => ((List.replicate n b, none), count + n) }

/-- The test helper `&byteReader{b: b}`, with `count` zero. -/
def byteReader (b : Nat) : Reader :=
  byteReaderAt b 0

/-- The test helper `errorReader{err}`: returns `0, err`. -/
def errorReader (err : Error) : Reader :=
  { σ := Unit, state := (), Read := fun _ _ => (([], some err), ()) }

/-! ## The random pool (`random_pool.go`) -/

/-- Source `randomPool` (the mutex is not modelled: calls are sequential).
`buffer = none` is the nil slice. -/
structure randomPool where
  buffer : Option (List Nat)
  index : Nat

/-- The package variables `randomSource` and `pool`. -/
structure World where
  randomSource : Reader
  pool : randomPool

/-- Source `SetSource`. -/
def SetSource (r : Reader) (w : World) : World :=
  { w with randomSource := r }

/-- Source `EnableRandomPool`. -/
def EnableRandomPool (w : World) : World :=
  if w.pool.buffer.isNone then
    { w with pool := { buffer := some (List.replicate 1024 0), index := 1024 } }
  else w

/-- Source `DisableRandomPool`. -/
def DisableRandomPool (w : World) : World :=
  { w with pool := { buffer := none, index := 0 } }

/-- Source `usingPool`. -/
def usingPool (w : World) : Bool :=
  w.pool.buffer.isSome

/-- Lines 56-58 of `randomPool.next`: the slice expression `rp.buffer[rp.index:rp.index+16]`
panics when `rp.index+16` exceeds the capacity of the buffer. -/
def randomPool.serve (w : World) : Except Fault ((List Nat × Option Error) × World) :=
  let buf := w.pool.buffer.getD []
  if w.pool.index + 16 ≤ buf.length then
    Except.ok
      ((copy zeroUUID ((buf.drop w.pool.index).take 16), none),
       { w with pool := { w.pool with index := w.pool.index + 16 } })
  else Except.error Fault.outOfRange

/-- Source `randomPool.next` on the package variable `pool`. -/
def randomPool.next (fuel : Nat) (w : World) : Except Fault ((List Nat × Option Error) × World) :=
  if w.pool.index = (w.pool.buffer.getD []).length then
    match ReadFull fuel w.randomSource (w.pool.buffer.getD []) with
    | Except.error f => Except.error f
    | Except.ok ((buf, _, some err), r) =>
      Except.ok ((zeroUUID, some err),
        { randomSource := r,
          pool := { w.pool with buffer := w.pool.buffer.map fun _ => buf } })
    | Except.ok ((buf, _, none), r) =>
      randomPool.serve
        { randomSource := r,
          pool := { buffer := w.pool.buffer.map fun _ => buf, index := 0 } }
  else randomPool.serve w

/-! ## Generation (`uuidv4.go`, lines 21-46) -/

/-- Lines 33-34 and 43-44: set version 4 and variant 1. -/
def setVersionVariant (result : UUIDv4) : UUIDv4 :=
  let result := result.set 6 (0x40 ||| (result.getD 6 0 &&& 0x0f))
  result.set 8 (0x80 ||| (result.getD 8 0 &&& 0x3f))

/-- Source `NewUUIDv4Reader`. -/
def NewUUIDv4Reader (fuel : Nat) (r : Reader) :
    Except Fault ((UUIDv4 × Option Error) × Reader) :=
  match ReadFull fuel r zeroUUID with
  | Except.error f => Except.error f
  | Except.ok ((result, _, some err), r1) => Except.ok ((result, some err), r1)
  | Except.ok ((result, _, none), r1) => Except.ok ((setVersionVariant result, none), r1)

/-- Source `newUUIDv4FromPool`. -/
def newUUIDv4FromPool (fuel : Nat) (w : World) :
    Except Fault ((UUIDv4 × Option Error) × World) :=
  match randomPool.next fuel w with
  | Except.error f => Except.error f
  | Except.ok ((_, some err), w1) => Except.ok ((zeroUUID, some err), w1)
  | Except.ok ((result, none), w1) => Except.ok ((setVersionVariant result, none), w1)

/-- Source `NewUUIDv4`. -/
def NewUUIDv4 (fuel : Nat) (w : World) : Except Fault ((UUIDv4 × Option Error) × World) :=
  if usingPool w then
    newUUIDv4FromPool fuel w
  else
    match NewUUIDv4Reader fuel w.randomSource with
    | Except.error f => Except.error f
    | Except.ok (out, r1) => Except.ok (out, { w with randomSource := r1 })

/-! ## Vocabulary of the specification -/

/-- A byte in `0-9`, `a-f` or `A-F`. -/
def isHexDigit (c : Nat) : Bool :=
  (48 ≤ c && c ≤ 57) || (97 ≤ c && c ≤ 102) || (65 ≤ c && c ≤ 70)

/-- The value of a hex digit of either case. -/
def hexValue (c : Nat) : Nat :=
  if 48 ≤ c ∧ c ≤ 57 then c - 48
  else if 97 ≤ c ∧ c ≤ 102 then c - 97 + 10
  else c - 65 + 10

/-- The lower-case hex digit of a nibble. -/
def hexDigit (n : Nat) : Nat :=
  if n < 10 then 48 + n else 97 + (n - 10)

/-- ASCII lower-casing of one byte: `A-Z` to `a-z`, everything else unchanged. -/
def toLowerByte (c : Nat) : Nat :=
  if 65 ≤ c ∧ c ≤ 90 then c + 32 else c

/-- ASCII upper-casing of one byte: `a-z` to `A-Z`, everything else unchanged. -/
def toUpperByte (c : Nat) : Nat :=
  if 97 ≤ c ∧ c ≤ 122 then c - 32 else c

/-- Every element is a byte. -/
def IsBytes (b : List Nat) : Prop :=
  ∀ x ∈ b, x < 256

instance (b : List Nat) : Decidable (IsBytes b) := by
  unfold IsBytes; infer_instance

/-- The positions of the four dashes. -/
def dashPositions : List Nat := [8, 13, 18, 23]

/-- Structural validity of a 36-character text: length 36, dashes at 8, 13, 18, 23,
hex digits at the other 32 positions. -/
def StructurallyValid (s : List Nat) : Prop :=
  s.length = 36 ∧
    ∀ i < 36, if i ∈ dashPositions then s.getD i 0 = dash else isHexDigit (s.getD i 0) = true

instance (s : List Nat) : Decidable (StructurallyValid s) := by
  unfold StructurallyValid; infer_instance

/-- The bytes that lines 65-84 store into `result`. -/
def decodedBytes (s : List Nat) : List Nat :=
  pairPositions.map fun p => (parseHexPair (s.getD p.1 0) (s.getD p.2 0) false).1

/-- Whether one of the 32 bytes read by lines 65-84 is not a hex digit. -/
def anyNonHex (s : List Nat) : Bool :=
  pairPositions.any fun p => !isHexDigit (s.getD p.1 0) || !isHexDigit (s.getD p.2 0)

/-- Whether one of the positions 8, 13, 18, 23 does not hold a dash. -/
def badDashes (s : List Nat) : Bool :=
  s.getD 8 0 != dash || (s.getD 13 0 != dash || (s.getD 18 0 != dash || s.getD 23 0 != dash))

/-- The text that `String` renders: byte `i` of `a` as two lower-case hex digits, high
nibble first, grouped 4-2-2-2-6. -/
def rendered (a : List Nat) : List Nat :=
  [hexDigit (a.getD 0 0 / 16), hexDigit (a.getD 0 0 % 16),
   hexDigit (a.getD 1 0 / 16), hexDigit (a.getD 1 0 % 16),
   hexDigit (a.getD 2 0 / 16), hexDigit (a.getD 2 0 % 16),
   hexDigit (a.getD 3 0 / 16), hexDigit (a.getD 3 0 % 16),
   dash,
   hexDigit (a.getD 4 0 / 16), hexDigit (a.getD 4 0 % 16),
   hexDigit (a.getD 5 0 / 16), hexDigit (a.getD 5 0 % 16),
   dash,
   hexDigit (a.getD 6 0 / 16), hexDigit (a.getD 6 0 % 16),
   hexDigit (a.getD 7 0 / 16), hexDigit (a.getD 7 0 % 16),
   dash,
   hexDigit (a.getD 8 0 / 16), hexDigit (a.getD 8 0 % 16),
   hexDigit (a.getD 9 0 / 16), hexDigit (a.getD 9 0 % 16),
   dash,
   hexDigit (a.getD 10 0 / 16), hexDigit (a.getD 10 0 % 16),
   hexDigit (a.getD 11 0 / 16), hexDigit (a.getD 11 0 % 16),
   hexDigit (a.getD 12 0 / 16), hexDigit (a.getD 12 0 % 16),
   hexDigit (a.getD 13 0 / 16), hexDigit (a.getD 13 0 % 16),
   hexDigit (a.getD 14 0 / 16), hexDigit (a.getD 14 0 % 16),
   hexDigit (a.getD 15 0 / 16), hexDigit (a.getD 15 0 % 16)]

/-- A byte in `0-9` or `a-f`. -/
def isLowerHexDigit (c : Nat) : Bool :=
  (48 ≤ c && c ≤ 57) || (97 ≤ c && c ≤ 102)

/-- The position in the rendered text of the first character of byte `k`: two
characters per byte, one dash after each of the byte groups 0-3, 4-5, 6-7, 8-9. -/
def bytePosition (k : Nat) : Nat :=
  2 * k + (if k < 4 then 0 else if k < 6 then 1 else if k < 8 then 2 else if k < 10 then 3 else 4)

/-- The byte `'4'`. -/
def versionChar : Nat := 52

/-- The bytes `8 9 a b A B c d C D`. -/
def variantChars : List Nat := [56, 57, 97, 98, 65, 66, 99, 100, 67, 68]

/-- The bytes of a pair-wise decoding: each two adjacent hex digits give one byte,
the first digit being the high nibble. -/
def pairUp : List Nat → List Nat
  | h :: l :: rest => (16 * hexValue h + hexValue l) :: pairUp rest
  | _ => []

/-- The decoding of a canonical text as the specification words it: drop the dashes,
pair the 32 hex digits left to right. -/
def decodeSpec (s : List Nat) : List Nat :=
  pairUp (s.filter (· != dash))

/-- The error of `validateVersionVariant` as a function of bytes 6 and 8. -/
def versionVariantError (x6 x8 : Nat) : Option Error :=
  if x6 &&& 0xf0 ≠ 0x40 then some Error.ErrInvalidUUIDv4Version
  else if x8 &&& 0xc0 ≠ 0x80 ∧ x8 &&& 0xe0 ≠ 0xc0 then some Error.ErrInvalidUUIDv4Variant
  else none

/-! ## Sample inputs -/

/-- The text `00010203-0405-4607-A809-0a0b0C0D0e0F`. -/
def sampleText : List Nat :=
  [48, 48, 48, 49, 48, 50, 48, 51, 45, 48, 52, 48, 53, 45, 52, 54, 48, 55, 45,
   65, 56, 48, 57, 45, 48, 97, 48, 98, 48, 67, 48, 68, 48, 101, 48, 70]

/-- The identifier `00010203-0405-4607-a809-0a0b0c0d0e0f`. -/
def sampleUUID : UUIDv4 :=
  [0, 1, 2, 3, 4, 5, 0x46, 7, 0xa8, 9, 10, 11, 12, 13, 14, 15]

/-- The text `00010203-0405-0607-0809-0a0b0c0d0e0f`: version nibble 0 and variant
nibble 0 are both wrong. -/
def bothWrongText : List Nat :=
  [48, 48, 48, 49, 48, 50, 48, 51, 45, 48, 52, 48, 53, 45, 48, 54, 48, 55, 45,
   48, 56, 48, 57, 45, 48, 97, 48, 98, 48, 99, 48, 100, 48, 101, 48, 102]

/-- The package state with source `byteReader{b: 1}` and the pool disabled. -/
def directWorld : World :=
  { randomSource := byteReader 1, pool := { buffer := none, index := 0 } }

/-- The identifier `01010101-0101-4101-8101-010101010101`. -/
def onesUUID : UUIDv4 := [1, 1, 1, 1, 1, 1, 0x41, 1, 0x81, 1, 1, 1, 1, 1, 1, 1]

/-- The rendering of an identifier generated from a source that supplies only the byte
`b`: with `h l` the two hex digits of `b`, the text is `hlhlhlhl-hlhl-4lhl-vlhl-hlhlhlhlhlhl`,
where `v` is the hex digit of `8 + (b / 16) % 4`. -/
def constantText (b : Nat) : List Nat :=
  let h := hexDigit (b / 16)
  let l := hexDigit (b % 16)
  let v := hexDigit (8 + b / 16 % 4)
  [h, l, h, l, h, l, h, l, dash, h, l, h, l, dash, versionChar, l, h, l, dash,
   v, l, h, l, dash, h, l, h, l, h, l, h, l, h, l, h, l]

/-- The text `01010101-0101-4101-8101-010101010101`. -/
def onesText : List Nat :=
  [48, 49, 48, 49, 48, 49, 48, 49, 45, 48, 49, 48, 49, 45, 52, 49, 48, 49, 45,
   56, 49, 48, 49, 45, 48, 49, 48, 49, 48, 49, 48, 49, 48, 49, 48, 49]

/-- The package state with source `byteReader{b}` and the pool freshly enabled. -/
def pooledWorld (b : Nat) : World :=
  EnableRandomPool { randomSource := byteReader b, pool := { buffer := none, index := 0 } }

/-! ## Errors, sources, runs and reachable states -/

/-- The error that `io.ReadAtLeast` reports when its loop ends with error `e` after `n`
bytes, `n` being less than the requested number: `io.EOF` after at least one byte
becomes `io.ErrUnexpectedEOF`. -/
def reportedError (n : Nat) (e : Error) : Error :=
  if 0 < n ∧ e = Error.EOF then Error.ErrUnexpectedEOF else e

/-- A reader over a fixed byte string, like `bytes.Reader`: `Read` hands out the next
bytes, and returns `0, io.EOF` once none are left. The state is the unread rest. -/
def dataReader (data : List Nat) : Reader :=
  { σ := List Nat, state := data,
    Read := fun rest n =>
      if rest.isEmpty then (([], some Error.EOF), rest)
      else ((rest.take n, none), rest.drop n) }

/-- The package state of `TestNewUUIDv4_ReturnsRandomPoolError`: source
`errorReader{err}` and the pool freshly enabled. -/
def failingPooledWorld (err : Error) : World :=
  EnableRandomPool { randomSource := errorReader err, pool := { buffer := none, index := 0 } }

/-- A source that holds the five bytes `7 7 7 7 7` and then reports `io.EOF`. -/
def fiveBytes : Reader := dataReader [7, 7, 7, 7, 7]

/-- The array after five bytes `7` were read into the zero value. -/
def fiveRead : List Nat := [7, 7, 7, 7, 7, 0, 0, 0, 0, 0, 0, 0, 0, 0, 0, 0]

/-- The package state after one `NewUUIDv4` call on `pooledWorld 2`: the buffer holds
1024 bytes `2` supplied by `byteReader{b: 2}`, of which 16 are consumed. -/
def staleWorld : World :=
  { randomSource := byteReaderAt 2 1024,
    pool := { buffer := some (List.replicate 1024 2), index := 16 } }

/-- The identifier `02020202-0202-4202-8202-020202020202`. -/
def twosUUID : UUIDv4 := [2, 2, 2, 2, 2, 2, 0x42, 2, 0x82, 2, 2, 2, 2, 2, 2, 2]

/-- The package states reachable from an initial state (any source, pool disabled) by
sequential calls of `EnableRandomPool`, `DisableRandomPool`, `SetSource` and
`NewUUIDv4`; a `NewUUIDv4` call that returns, with or without an error, leads to the
state it leaves behind. -/
inductive Reachable : World → Prop where
  | init (r : Reader) :
    Reachable { randomSource := r, pool := { buffer := none, index := 0 } }
  | enable (w : World) : Reachable w → Reachable (EnableRandomPool w)
  | disable (w : World) : Reachable w → Reachable (DisableRandomPool w)
  | setSource (r : Reader) (w : World) : Reachable w → Reachable (SetSource r w)
  | newUUIDv4 (fuel : Nat) (w w1 : World) (out : UUIDv4 × Option Error) :
    Reachable w → NewUUIDv4 fuel w = Except.ok (out, w1) → Reachable w1

/-- The pool is either disabled with cursor 0, or holds a 1024-byte buffer with a cursor
that is a multiple of 16 and at most 1024. -/
def PoolInv (p : randomPool) : Prop :=
  (p.buffer = none ∧ p.index = 0) ∨
    ∃ b, p.buffer = some b ∧ b.length = 1024 ∧ p.index ≤ 1024 ∧ 16 ∣ p.index

/-- The bytes `s p, s (p+1), ..., s (p+len-1)` of a byte stream `s`. -/
def streamBytes (s : Nat → Nat) : Nat → Nat → List Nat
  | _, 0 => []
  | p, len + 1 => s p :: streamBytes s (p + 1) len

/-- The number of bytes one `Read` of a stream source stores into a buffer of `n` bytes:
none for an empty buffer, otherwise between 1 and `n`, as `chunk` chooses. -/
def delivered (chunk : Nat → Nat → Nat) (pos n : Nat) : Nat :=
  if n = 0 then 0 else min n (chunk pos n + 1)

/-- A never-failing entropy source that delivers the byte stream `s 0, s 1, ...`: every
`Read` stores the next bytes of the stream, at least one and possibly fewer than the
buffer holds, and returns a nil error. The state is the number of bytes delivered. -/
def streamReader (s : Nat → Nat) (chunk : Nat → Nat → Nat) (pos : Nat) : Reader :=
  { σ := Nat, state := pos,
    Read := fun pos n =>
      ((streamBytes s pos (delivered chunk pos n), none), pos + delivered chunk pos n) }

/-- The outcomes of `n` successive `NewUUIDv4` calls, in order, and the state they leave;
the run ends where a call does not return. -/
def generate (fuel : Nat) : Nat → World → Except Fault (List (UUIDv4 × Option Error) × World)
  | 0, w => Except.ok ([], w)
  | n + 1, w =>
    match NewUUIDv4 fuel w with
    | Except.error f => Except.error f
    | Except.ok (out, w1) =>
      match generate fuel n w1 with
      | Except.error f => Except.error f
      | Except.ok (outs, w2) => Except.ok (out :: outs, w2)

/-- The fixed-field rule applied to the stream bytes `16n .. 16n+15`. -/
def streamUUID (s : Nat → Nat) (n : Nat) : UUIDv4 :=
  setVersionVariant (streamBytes s (16 * n) 16)

/-- The package state with a stream source, the pool disabled, after `n` identifiers:
the source has delivered `16 * n` bytes. -/
def directStreamAfter (s : Nat → Nat) (chunk : Nat → Nat → Nat) (n : Nat) : World :=
  { randomSource := streamReader s chunk (16 * n), pool := { buffer := none, index := 0 } }

/-- The package state with a stream source and a pool enabled at the start, after `n`
identifiers. With `q = (n + 63) / 64`, the number of refills so far, the source has
delivered `1024 * q` bytes, the buffer holds the stream bytes of the last refill and the
cursor is behind the last byte served. -/
def pooledStreamAfter (s : Nat → Nat) (chunk : Nat → Nat → Nat) (n : Nat) : World :=
  if n = 0 then
    EnableRandomPool
      { randomSource := streamReader s chunk 0, pool := { buffer := none, index := 0 } }
  else
    { randomSource := streamReader s chunk (1024 * ((n + 63) / 64)),
      pool := { buffer := some (streamBytes s (1024 * ((n + 63) / 64 - 1)) 1024),
                index := 16 * n - 1024 * ((n + 63) / 64 - 1) } }

/-- The byte stream `0, 1, ..., 255, 0, 1, ...`. -/
def countingStream (i : Nat) : Nat := i % 256

/-- A chunk choice under which every `Read` delivers at most 7 bytes. -/
def shortReads (_pos _n : Nat) : Nat := 6

/-! ## Byte-level lemmas -/

theorem parseHexNibble_fst (b : Nat) (fail : Bool) :
    (parseHexNibble b fail).1 = (parseHexNibble b false).1 := by
  unfold parseHexNibble; split_ifs <;> rfl

theorem parseHexNibble_snd (b : Nat) (fail : Bool) :
    (parseHexNibble b fail).2 = (fail || !isHexDigit b) := by
  unfold parseHexNibble isHexDigit
  split_ifs <;> simp_all
  omega

theorem parseHexNibble_hex (b : Nat) (h : isHexDigit b = true) :
    (parseHexNibble b false).1 = hexValue b := by
  unfold parseHexNibble hexValue
  unfold isHexDigit at h
  split_ifs <;> simp_all

theorem parseHexPair_fst (h l : Nat) (fail : Bool) :
    (parseHexPair h l fail).1 = (parseHexPair h l false).1 := by
  unfold parseHexPair
  simp only
  rw [parseHexNibble_fst h fail, parseHexNibble_fst l (parseHexNibble h fail).2,
    parseHexNibble_fst l (parseHexNibble h false).2]

theorem parseHexPair_snd (h l : Nat) (fail : Bool) :
    (parseHexPair h l fail).2 = (fail || (!isHexDigit h || !isHexDigit l)) := by
  unfold parseHexPair
  simp only [parseHexNibble_snd, Bool.or_assoc]

theorem hexValue_lt (c : Nat) (h : isHexDigit c = true) : hexValue c < 16 := by
  unfold hexValue
  unfold isHexDigit at h
  split_ifs <;> simp_all <;> omega

theorem parseHexPair_hex (h l : Nat) (hh : isHexDigit h = true) (hl : isHexDigit l = true) :
    (parseHexPair h l false).1 = 16 * hexValue h + hexValue l := by
  have h1 := hexValue_lt h hh
  have h2 := hexValue_lt l hl
  unfold parseHexPair
  simp only
  rw [parseHexNibble_fst l, parseHexNibble_hex h hh, parseHexNibble_hex l hl,
    Nat.shiftLeft_eq]
  omega

theorem nibbles_of_pair : ∀ a < 16, ∀ b < 16,
    (16 * a + b) >>> 4 = a ∧ (16 * a + b) &&& 15 = b ∧
    (16 * a + b) &&& 0xf0 = 16 * a := by
  decide

theorem hexAt_hexValue : ∀ c < 103, isHexDigit c = true →
    hexAt (hexValue c) = some (toLowerByte c) := by
  decide

set_option maxRecDepth 100000 in
theorem hexAt_byte : ∀ b < 256,
    hexAt (b >>> 4) = some (hexDigit (b / 16)) ∧ hexAt (b &&& 15) = some (hexDigit (b % 16)) := by
  decide

/-! ## The shape of `ParseUUIDv4` -/

theorem parsePairs_eq (s : List Nat) (tbl : List (Nat × Nat)) :
    ∀ fail : Bool, (∀ p ∈ tbl, p.1 < s.length ∧ p.2 < s.length) →
      parsePairs s tbl fail =
        some (tbl.map (fun p => (parseHexPair (s.getD p.1 0) (s.getD p.2 0) false).1),
          fail || tbl.any
            (fun p => !isHexDigit (s.getD p.1 0) || !isHexDigit (s.getD p.2 0))) := by
  induction tbl with
  | nil => intro fail _; simp [parsePairs]
  | cons p rest ih =>
    intro fail h
    have hp := h p (List.mem_cons_self _ _)
    have hr : ∀ q ∈ rest, q.1 < s.length ∧ q.2 < s.length :=
      fun q hq => h q (List.mem_cons_of_mem _ hq)
    have e1 : s[p.1]? = some (s.getD p.1 0) := by
      rw [List.getD_eq_getElem?_getD, List.getElem?_eq_getElem hp.1, Option.getD_some]
    have e2 : s[p.2]? = some (s.getD p.2 0) := by
      rw [List.getD_eq_getElem?_getD, List.getElem?_eq_getElem hp.2, Option.getD_some]
    simp only [parsePairs, e1, e2, ih _ hr, List.map_cons, List.any_cons, parseHexPair_snd,
      Bool.or_assoc]
    rw [parseHexPair_fst]

theorem malformedShape_short (s : List Nat) (h : s.length ≠ 36) :
    malformedShape s = some true := by
  simp [malformedShape, orElse, h]

theorem getElem?_eq_some_getD (s : List Nat) (i : Nat) (h : i < s.length) :
    s[i]? = some (s.getD i 0) := by
  rw [List.getD_eq_getElem?_getD, List.getElem?_eq_getElem h, Option.getD_some]

theorem malformedShape_36 (s : List Nat) (h : s.length = 36) :
    malformedShape s = some (badDashes s) := by
  unfold malformedShape badDashes
  rw [getElem?_eq_some_getD s 8 (by omega), getElem?_eq_some_getD s 13 (by omega),
    getElem?_eq_some_getD s 18 (by omega), getElem?_eq_some_getD s 23 (by omega), h]
  generalize s.getD 8 0 = c8
  generalize s.getD 13 0 = c13
  generalize s.getD 18 0 = c18
  generalize s.getD 23 0 = c23
  cases h8 : (c8 != dash) <;> cases h13 : (c13 != dash) <;>
    cases h18 : (c18 != dash) <;> cases h23 : (c23 != dash) <;>
    simp [orElse, h8, h13, h18, h23]

theorem parsePairs_36 (s : List Nat) (h : s.length = 36) :
    parsePairs s pairPositions false = some (decodedBytes s, anyNonHex s) := by
  have hp : ∀ p ∈ pairPositions, p.1 < s.length ∧ p.2 < s.length := by
    rw [h]; decide
  rw [parsePairs_eq s pairPositions false hp]
  rfl

theorem ParseUUIDv4_eq (s : List Nat) :
    ParseUUIDv4 s = some
      (if s.length ≠ 36 ∨ badDashes s = true then (zeroUUID, some Error.ErrMalformedUUIDv4)
       else if anyNonHex s = true then (decodedBytes s, some Error.ErrMalformedUUIDv4)
       else validateVersionVariant (decodedBytes s)) := by
  by_cases h : s.length = 36
  · unfold ParseUUIDv4
    rw [malformedShape_36 s h, parsePairs_36 s h]
    cases hb : badDashes s <;> cases ha : anyNonHex s <;> simp [h]
  · unfold ParseUUIDv4
    rw [malformedShape_short s h]
    simp [h]

theorem pairPositions_spec : ∀ p ∈ pairPositions,
    (p.1 < 36 ∧ p.1 ∉ dashPositions) ∧ (p.2 < 36 ∧ p.2 ∉ dashPositions) := by
  decide

theorem pairPositions_cover : ∀ i < 36, i ∉ dashPositions →
    ∃ p ∈ pairPositions, p.1 = i ∨ p.2 = i := by
  decide

theorem anyNonHex_eq_false (s : List Nat) :
    anyNonHex s = false ↔
      ∀ p ∈ pairPositions,
        isHexDigit (s.getD p.1 0) = true ∧ isHexDigit (s.getD p.2 0) = true := by
  unfold anyNonHex
  rw [List.any_eq_false]
  constructor
  · intro h p hp
    have := h p hp
    revert this
    generalize isHexDigit (s.getD p.1 0) = x
    generalize isHexDigit (s.getD p.2 0) = y
    cases x <;> cases y <;> simp
  · intro h p hp
    obtain ⟨h1, h2⟩ := h p hp
    rw [h1, h2]
    simp

theorem badDashes_eq_false (s : List Nat) :
    badDashes s = false ↔
      s.getD 8 0 = dash ∧ s.getD 13 0 = dash ∧ s.getD 18 0 = dash ∧ s.getD 23 0 = dash := by
  unfold badDashes
  generalize s.getD 8 0 = c8
  generalize s.getD 13 0 = c13
  generalize s.getD 18 0 = c18
  generalize s.getD 23 0 = c23
  simp [Bool.or_eq_false_iff]

theorem structurallyValid_iff (s : List Nat) :
    StructurallyValid s ↔
      s.length = 36 ∧ badDashes s = false ∧ anyNonHex s = false := by
  rw [badDashes_eq_false, anyNonHex_eq_false]
  unfold StructurallyValid
  constructor
  · rintro ⟨h, hall⟩
    refine ⟨h, ⟨?_, ?_, ?_, ?_⟩, ?_⟩
    · exact hall 8 (by omega)
    · exact hall 13 (by omega)
    · exact hall 18 (by omega)
    · exact hall 23 (by omega)
    · intro p hp
      obtain ⟨⟨a1, a2⟩, b1, b2⟩ := pairPositions_spec p hp
      have h1 := hall p.1 a1
      have h2 := hall p.2 b1
      rw [if_neg a2] at h1
      rw [if_neg b2] at h2
      exact ⟨h1, h2⟩
  · rintro ⟨h, ⟨d8, d13, d18, d23⟩, hex⟩
    refine ⟨h, ?_⟩
    intro i hi
    by_cases hd : i ∈ dashPositions
    · rw [if_pos hd]
      simp only [dashPositions, List.mem_cons, List.mem_singleton, List.not_mem_nil,
        or_false] at hd
      rcases hd with rfl | rfl | rfl | rfl <;> assumption
    · rw [if_neg hd]
      obtain ⟨p, hp, hpi⟩ := pairPositions_cover i hi hd
      rcases hpi with rfl | rfl
      · exact (hex p hp).1
      · exact (hex p hp).2

theorem validateVersionVariant_fst (r : UUIDv4) : (validateVersionVariant r).1 = r := by
  unfold validateVersionVariant
  split_ifs <;> rfl

theorem validateVersionVariant_ne_malformed (r : UUIDv4) :
    (validateVersionVariant r).2 ≠ some Error.ErrMalformedUUIDv4 := by
  unfold validateVersionVariant
  split_ifs <;> simp

/-! ## Rendering lemmas -/

theorem mapM_id_some (l : List Nat) : List.mapM id (l.map some) = some l := by
  rw [← List.mapM'_eq_mapM]
  induction l with
  | nil => rfl
  | cons a l ih =>
    rw [List.map_cons, List.mapM'_cons, ih]
    rfl

theorem list_eq_map_getD (s : List Nat) (n : Nat) (h : s.length = n) :
    s = (List.range n).map (fun i => s.getD i 0) := by
  apply List.ext_getElem
  · simp [h]
  · intro i h1 h2
    simp [List.getD_eq_getElem?_getD, List.getElem?_eq_getElem h1]

theorem getD_lt_of_isBytes (a : List Nat) (h : IsBytes a) (i : Nat) : a.getD i 0 < 256 := by
  rw [List.getD_eq_getElem?_getD]
  by_cases hi : i < a.length
  · rw [List.getElem?_eq_getElem hi, Option.getD_some]
    exact h _ (List.getElem_mem _)
  · rw [List.getElem?_eq_none (by omega)]
    simp

theorem String_eq_rendered (a : List Nat) (h : IsBytes a) :
    UUIDv4.String a = some (rendered a) := by
  have e := fun i => hexAt_byte (a.getD i 0) (getD_lt_of_isBytes a h i)
  unfold UUIDv4.String
  simp only [e]
  exact mapM_id_some (rendered a)

/-! ## Parsing then rendering -/

theorem hexDigit_hexValue : ∀ c < 103, isHexDigit c = true →
    hexDigit (hexValue c) = toLowerByte c := by
  decide

theorem isHexDigit_lt (c : Nat) (h : isHexDigit c = true) : c < 103 := by
  unfold isHexDigit at h
  simp at h
  omega

theorem render_pair (h l : Nat) (hh : isHexDigit h = true) (hl : isHexDigit l = true) :
    hexDigit ((parseHexPair h l false).1 / 16) = toLowerByte h ∧
    hexDigit ((parseHexPair h l false).1 % 16) = toLowerByte l := by
  have h1 := hexValue_lt h hh
  have h2 := hexValue_lt l hl
  rw [parseHexPair_hex h l hh hl]
  have e1 : (16 * hexValue h + hexValue l) / 16 = hexValue h := by omega
  have e2 : (16 * hexValue h + hexValue l) % 16 = hexValue l := by omega
  rw [e1, e2]
  exact ⟨hexDigit_hexValue h (isHexDigit_lt h hh) hh, hexDigit_hexValue l (isHexDigit_lt l hl) hl⟩

theorem parseHexPair_lt (h l : Nat) (f : Bool) : (parseHexPair h l f).1 < 256 := by
  unfold parseHexPair
  exact Nat.mod_lt _ (by norm_num)

theorem isBytes_decodedBytes (s : List Nat) : IsBytes (decodedBytes s) := by
  intro x hx
  unfold decodedBytes at hx
  rw [List.mem_map] at hx
  obtain ⟨p, _, rfl⟩ := hx
  exact parseHexPair_lt _ _ _

theorem rendered_decodedBytes (s : List Nat) (h : s.length = 36)
    (hb : badDashes s = false) (ha : anyNonHex s = false) :
    rendered (decodedBytes s) = s.map toLowerByte := by
  have hx := (anyNonHex_eq_false s).1 ha
  obtain ⟨d8, d13, d18, d23⟩ := (badDashes_eq_false s).1 hb
  have P := fun p hp => render_pair _ _ (hx p hp).1 (hx p hp).2
  have hs := list_eq_map_getD s 36 h
  simp only [List.range, List.range.loop, List.map] at hs
  conv_rhs => rw [hs]
  simp only [List.map, d8, d13, d18, d23]
  unfold rendered decodedBytes pairPositions
  simp only [List.map, List.getD_cons_zero, List.getD_cons_succ]
  simp only [P (0, 1) (by decide),
    P (2, 3) (by decide),
    P (4, 5) (by decide),
    P (6, 7) (by decide),
    P (9, 10) (by decide),
    P (11, 12) (by decide),
    P (14, 15) (by decide),
    P (16, 17) (by decide),
    P (19, 20) (by decide),
    P (21, 22) (by decide),
    P (24, 25) (by decide),
    P (26, 27) (by decide),
    P (28, 29) (by decide),
    P (30, 31) (by decide),
    P (32, 33) (by decide),
    P (34, 35) (by decide)]
  rfl

theorem ParseUUIDv4_accept (s : List Nat) (id : UUIDv4)
    (h : ParseUUIDv4 s = some (id, none)) :
    s.length = 36 ∧ badDashes s = false ∧ anyNonHex s = false ∧
      validateVersionVariant (decodedBytes s) = (id, none) := by
  rw [ParseUUIDv4_eq] at h
  by_cases hl : s.length = 36
  · cases hb : badDashes s
    · cases ha : anyNonHex s
      · rw [if_neg (by simp [hl, hb]), if_neg (by simp [ha])] at h
        exact ⟨hl, rfl, rfl, Option.some.inj h⟩
      · rw [if_neg (by simp [hl, hb]), if_pos ha] at h
        simp at h
    · rw [if_pos (Or.inr hb)] at h
      simp at h
  · rw [if_pos (Or.inl hl)] at h
    simp at h

theorem toUpperByte_facts : ∀ c < 103,
    isHexDigit (toUpperByte c) = isHexDigit c ∧
    (isHexDigit c = true → parseHexNibble (toUpperByte c) false = parseHexNibble c false) := by
  decide

theorem isHexDigit_toUpperByte (c : Nat) : isHexDigit (toUpperByte c) = isHexDigit c := by
  by_cases h : c < 103
  · exact (toUpperByte_facts c h).1
  · have e1 : isHexDigit c = false := by
      unfold isHexDigit
      rw [Bool.eq_false_iff]
      simp
      omega
    have e2 : isHexDigit (toUpperByte c) = false := by
      unfold isHexDigit toUpperByte
      rw [Bool.eq_false_iff]
      split_ifs <;> simp <;> omega
    rw [e1, e2]

theorem toUpperByte_eq_dash (c : Nat) : (toUpperByte c != dash) = (c != dash) := by
  unfold toUpperByte dash
  split_ifs with h
  · have h1 : c - 32 ≠ 45 := by omega
    have h2 : c ≠ 45 := by omega
    rw [bne_iff_ne.2 h1, bne_iff_ne.2 h2]
  · rfl

theorem parseHexPair_toUpperByte (h l : Nat) (hh : isHexDigit h = true)
    (hl : isHexDigit l = true) :
    (parseHexPair (toUpperByte h) (toUpperByte l) false).1 = (parseHexPair h l false).1 := by
  have e1 := (toUpperByte_facts h (isHexDigit_lt h hh)).2 hh
  have e2 := (toUpperByte_facts l (isHexDigit_lt l hl)).2 hl
  unfold parseHexPair
  simp only
  rw [parseHexNibble_fst (toUpperByte l), parseHexNibble_fst l, e1, e2]

theorem getD_map_toUpperByte (s : List Nat) (i : Nat) :
    (s.map toUpperByte).getD i 0 = toUpperByte (s.getD i 0) := by
  rw [List.getD_eq_getElem?_getD, List.getD_eq_getElem?_getD, List.getElem?_map]
  cases s[i]? <;> rfl

theorem badDashes_toUpper (s : List Nat) : badDashes (s.map toUpperByte) = badDashes s := by
  unfold badDashes
  simp only [getD_map_toUpperByte, toUpperByte_eq_dash]

theorem anyNonHex_toUpper (s : List Nat) : anyNonHex (s.map toUpperByte) = anyNonHex s := by
  unfold anyNonHex
  simp only [getD_map_toUpperByte, isHexDigit_toUpperByte]

theorem decodedBytes_toUpper (s : List Nat) (ha : anyNonHex s = false) :
    decodedBytes (s.map toUpperByte) = decodedBytes s := by
  have hx := (anyNonHex_eq_false s).1 ha
  unfold decodedBytes
  apply List.map_congr_left
  intro p hp
  simp only [getD_map_toUpperByte]
  exact parseHexPair_toUpperByte _ _ (hx p hp).1 (hx p hp).2

/-! ## Version and variant bits -/

set_option maxRecDepth 100000 in
theorem byte_bits : ∀ x < 256,
    (x &&& 0xf0 = 0x40 ↔ x / 16 = 4) ∧ (x &&& 0xc0 = 0x80 ↔ x / 64 = 2) ∧
    (x &&& 0xe0 = 0xc0 ↔ x / 32 = 6) ∧
    ((x / 64 = 2 ∨ x / 32 = 6) ↔ (8 ≤ x / 16 ∧ x / 16 ≤ 13)) := by
  decide

theorem copy_zeroUUID (b : List Nat) (h : b.length = 16) : copy zeroUUID b = b := by
  unfold copy zeroUUID
  rw [List.length_replicate, ← h, List.take_length, List.drop_eq_nil_of_le (by simp [h])]
  simp

theorem FromBytes_16 (b : List Nat) (h : b.length = 16) :
    FromBytes b = validateVersionVariant b := by
  unfold FromBytes
  rw [if_neg (by simp [h]), copy_zeroUUID b h]

theorem validateVersionVariant_snd (r : UUIDv4) :
    (validateVersionVariant r).2 = versionVariantError (r.getD 6 0) (r.getD 8 0) := by
  unfold validateVersionVariant versionVariantError
  split_ifs <;> rfl

theorem versionVariantError_version (x6 x8 : Nat) (h6 : x6 < 256) (h : x6 / 16 ≠ 4) :
    versionVariantError x6 x8 = some Error.ErrInvalidUUIDv4Version := by
  unfold versionVariantError
  rw [if_pos]
  rw [ne_eq, (byte_bits x6 h6).1]
  exact h

theorem versionVariantError_variant (x6 x8 : Nat) (h6 : x6 < 256) (h8 : x8 < 256)
    (h : x6 / 16 = 4) (hv : ¬ (x8 / 64 = 2 ∨ x8 / 32 = 6)) :
    versionVariantError x6 x8 = some Error.ErrInvalidUUIDv4Variant := by
  unfold versionVariantError
  rw [if_neg, if_pos]
  · rw [ne_eq, ne_eq, (byte_bits x8 h8).2.1, (byte_bits x8 h8).2.2.1]
    exact not_or.1 hv
  · rw [ne_eq, not_not, (byte_bits x6 h6).1]
    exact h

theorem versionVariantError_none (x6 x8 : Nat) (h6 : x6 < 256) (h8 : x8 < 256)
    (h : x6 / 16 = 4) (hv : x8 / 64 = 2 ∨ x8 / 32 = 6) :
    versionVariantError x6 x8 = none := by
  unfold versionVariantError
  rw [if_neg, if_neg]
  · rw [ne_eq, ne_eq, (byte_bits x8 h8).2.1, (byte_bits x8 h8).2.2.1, ← not_or, not_not]
    exact hv
  · rw [ne_eq, not_not, (byte_bits x6 h6).1]
    exact h

/-! ## Decoding -/

theorem pair_bits : ∀ a < 16, ∀ b < 16,
    (16 * a + b) / 16 = a ∧ (16 * a + b) / 64 = a / 4 ∧ (16 * a + b) / 32 = a / 2 := by
  decide

theorem hexValue_chars : ∀ c < 103, isHexDigit c = true →
    (hexValue c = 4 ↔ c = versionChar) ∧
    ((hexValue c / 4 = 2 ∨ hexValue c / 2 = 6) ↔ c ∈ variantChars) ∧ c ≠ dash := by
  decide

theorem decodedBytes_getD_6 (s : List Nat) :
    (decodedBytes s).getD 6 0 = (parseHexPair (s.getD 14 0) (s.getD 15 0) false).1 := rfl

theorem decodedBytes_getD_8 (s : List Nat) :
    (decodedBytes s).getD 8 0 = (parseHexPair (s.getD 19 0) (s.getD 20 0) false).1 := rfl

theorem decodedBytes_length (s : List Nat) : (decodedBytes s).length = 16 := rfl

theorem pair_version_variant (h l : Nat) (hh : isHexDigit h = true) (hl : isHexDigit l = true) :
    ((parseHexPair h l false).1 / 16 = 4 ↔ h = versionChar) ∧
    (((parseHexPair h l false).1 / 64 = 2 ∨ (parseHexPair h l false).1 / 32 = 6) ↔
      h ∈ variantChars) := by
  have b := pair_bits _ (hexValue_lt h hh) _ (hexValue_lt l hl)
  have c := hexValue_chars h (isHexDigit_lt h hh) hh
  rw [parseHexPair_hex h l hh hl, b.1, b.2.1, b.2.2]
  exact ⟨c.1, c.2.1⟩

theorem decodeSpec_eq_decodedBytes (s : List Nat) (hv : StructurallyValid s) :
    decodeSpec s = decodedBytes s := by
  obtain ⟨h, hb, ha⟩ := (structurallyValid_iff s).1 hv
  have hx := (anyNonHex_eq_false s).1 ha
  obtain ⟨d8, d13, d18, d23⟩ := (badDashes_eq_false s).1 hb
  have F : ∀ i, i < 36 → i ∉ dashPositions → (s.getD i 0 != dash) = true := by
    intro i hi hn
    have := hv.2 i hi
    rw [if_neg hn] at this
    exact bne_iff_ne.2 (hexValue_chars _ (isHexDigit_lt _ this) this).2.2
  have Q := fun p hp => (parseHexPair_hex _ _ (hx p hp).1 (hx p hp).2)
  have hs := list_eq_map_getD s 36 h
  simp only [List.range, List.range.loop, List.map] at hs
  unfold decodeSpec
  conv_lhs => rw [hs]
  unfold decodedBytes pairPositions
  simp only [List.map]
  simp only [Q (0, 1) (by decide),
    Q (2, 3) (by decide),
    Q (4, 5) (by decide),
    Q (6, 7) (by decide),
    Q (9, 10) (by decide),
    Q (11, 12) (by decide),
    Q (14, 15) (by decide),
    Q (16, 17) (by decide),
    Q (19, 20) (by decide),
    Q (21, 22) (by decide),
    Q (24, 25) (by decide),
    Q (26, 27) (by decide),
    Q (28, 29) (by decide),
    Q (30, 31) (by decide),
    Q (32, 33) (by decide),
    Q (34, 35) (by decide)]
  simp only [d8, d13, d18, d23]
  have D : (dash != dash) = false := by decide
  simp only [List.filter, D,
    F 0 (by decide) (by decide),
    F 1 (by decide) (by decide),
    F 2 (by decide) (by decide),
    F 3 (by decide) (by decide),
    F 4 (by decide) (by decide),
    F 5 (by decide) (by decide),
    F 6 (by decide) (by decide),
    F 7 (by decide) (by decide),
    F 9 (by decide) (by decide),
    F 10 (by decide) (by decide),
    F 11 (by decide) (by decide),
    F 12 (by decide) (by decide),
    F 14 (by decide) (by decide),
    F 15 (by decide) (by decide),
    F 16 (by decide) (by decide),
    F 17 (by decide) (by decide),
    F 19 (by decide) (by decide),
    F 20 (by decide) (by decide),
    F 21 (by decide) (by decide),
    F 22 (by decide) (by decide),
    F 24 (by decide) (by decide),
    F 25 (by decide) (by decide),
    F 26 (by decide) (by decide),
    F 27 (by decide) (by decide),
    F 28 (by decide) (by decide),
    F 29 (by decide) (by decide),
    F 30 (by decide) (by decide),
    F 31 (by decide) (by decide),
    F 32 (by decide) (by decide),
    F 33 (by decide) (by decide),
    F 34 (by decide) (by decide),
    F 35 (by decide) (by decide)]
  rfl

theorem ParseUUIDv4_valid (s : List Nat) (hv : StructurallyValid s) :
    ParseUUIDv4 s = some (validateVersionVariant (decodedBytes s)) := by
  obtain ⟨h, hb, ha⟩ := (structurallyValid_iff s).1 hv
  rw [ParseUUIDv4_eq, if_neg (by simp [h, hb]), if_neg (by simp [ha])]

theorem versionVariantError_eq_none (x6 x8 : Nat) (h6 : x6 < 256) (h8 : x8 < 256)
    (h : versionVariantError x6 x8 = none) :
    x6 / 16 = 4 ∧ (x8 / 64 = 2 ∨ x8 / 32 = 6) := by
  by_cases h4 : x6 / 16 = 4
  · by_cases hv : x8 / 64 = 2 ∨ x8 / 32 = 6
    · exact ⟨h4, hv⟩
    · rw [versionVariantError_variant x6 x8 h6 h8 h4 hv] at h
      cases h
  · rw [versionVariantError_version x6 x8 h6 h4] at h
    cases h

theorem decoded_error (s : List Nat) (ha : anyNonHex s = false) :
    ((validateVersionVariant (decodedBytes s)).2 = none ↔
      (s.getD 14 0 = versionChar ∧ s.getD 19 0 ∈ variantChars)) ∧
    (s.getD 14 0 ≠ versionChar →
      (validateVersionVariant (decodedBytes s)).2 = some Error.ErrInvalidUUIDv4Version) := by
  have hx := (anyNonHex_eq_false s).1 ha
  have p6 := pair_version_variant _ _ (hx (14, 15) (by decide)).1 (hx (14, 15) (by decide)).2
  have p8 := pair_version_variant _ _ (hx (19, 20) (by decide)).1 (hx (19, 20) (by decide)).2
  have l6 := parseHexPair_lt (s.getD 14 0) (s.getD 15 0) false
  have l8 := parseHexPair_lt (s.getD 19 0) (s.getD 20 0) false
  rw [validateVersionVariant_snd, decodedBytes_getD_6, decodedBytes_getD_8]
  refine ⟨⟨?_, ?_⟩, ?_⟩
  · intro h
    obtain ⟨a, b⟩ := versionVariantError_eq_none _ _ l6 l8 h
    exact ⟨p6.1.1 a, p8.2.1 b⟩
  · rintro ⟨a, b⟩
    exact versionVariantError_none _ _ l6 l8 (p6.1.2 a) (p8.2.2 b)
  · intro a
    exact versionVariantError_version _ _ l6 (fun e => a (p6.1.1 e))

theorem hexDigit_facts : ∀ n < 16,
    hexDigit n ≠ dash ∧ isLowerHexDigit (hexDigit n) = true := by
  decide

theorem rendered_cells (a : List Nat) (hb : IsBytes a) (k : Nat) :
    (hexDigit (a.getD k 0 / 16) ≠ dash ∧
      isLowerHexDigit (hexDigit (a.getD k 0 / 16)) = true) ∧
    (hexDigit (a.getD k 0 % 16) ≠ dash ∧
      isLowerHexDigit (hexDigit (a.getD k 0 % 16)) = true) := by
  have := getD_lt_of_isBytes a hb k
  exact ⟨hexDigit_facts _ (by omega), hexDigit_facts _ (by omega)⟩

/-! ## Generation lemmas -/

theorem copy_length (dst src : List Nat) : (copy dst src).length = dst.length := by
  unfold copy
  rw [List.length_append, List.length_take, List.length_drop]
  omega

theorem Reader.call_length (r : Reader) (p : List Nat) : (r.call p).1.1.length = p.length := by
  unfold Reader.call
  exact copy_length _ _

theorem readLoop_length (min : Nat) :
    ∀ (fuel : Nat) (r : Reader) (buf : List Nat) (n : Nat) (err : Option Error)
      (out : List Nat × Nat × Option Error) (r1 : Reader),
      readLoop min fuel r buf n err = Except.ok (out, r1) → out.1.length = buf.length := by
  intro fuel
  induction fuel with
  | zero =>
    intro r buf n err out r1 h
    unfold readLoop at h
    split_ifs at h
    cases h
    rfl
  | succ fuel ih =>
    intro r buf n err out r1 h
    unfold readLoop at h
    split_ifs at h
    · have := ih _ _ _ _ _ _ h
      rw [this, List.length_append, List.length_take, Reader.call_length, List.length_drop]
      omega
    · cases h
      rfl

theorem ReadFull_length (fuel : Nat) (r r1 : Reader) (buf : List Nat)
    (out : List Nat × Nat × Option Error)
    (h : ReadFull fuel r buf = Except.ok (out, r1)) : out.1.length = buf.length := by
  unfold ReadFull ReadAtLeast at h
  split_ifs at h
  · cases h
    rfl
  · cases hl : readLoop buf.length fuel r buf 0 none with
    | error f => rw [hl] at h; cases h
    | ok v =>
      obtain ⟨⟨b1, n, e⟩, r2⟩ := v
      have := readLoop_length _ _ _ _ _ _ _ _ hl
      rw [hl] at h
      simp only at h
      split_ifs at h <;> cases h <;> exact this

theorem setVersionVariant_length (l : List Nat) : (setVersionVariant l).length = l.length := by
  unfold setVersionVariant
  simp

theorem getD_set_eq (l : List Nat) (i v : Nat) (h : i < l.length) :
    (l.set i v).getD i 0 = v := by
  rw [List.getD_eq_getElem?_getD, List.getElem?_set_self h, Option.getD_some]

theorem getD_set_ne (l : List Nat) (i j v : Nat) (h : i ≠ j) :
    (l.set i v).getD j 0 = l.getD j 0 := by
  rw [List.getD_eq_getElem?_getD, List.getD_eq_getElem?_getD, List.getElem?_set_ne h]

theorem setVersionVariant_getD (l : List Nat) (h : l.length = 16) :
    (setVersionVariant l).getD 6 0 = 0x40 ||| (l.getD 6 0 &&& 0x0f) ∧
    (setVersionVariant l).getD 8 0 = 0x80 ||| (l.getD 8 0 &&& 0x3f) ∧
    ∀ i, i ≠ 6 → i ≠ 8 → (setVersionVariant l).getD i 0 = l.getD i 0 := by
  unfold setVersionVariant
  refine ⟨?_, ?_, ?_⟩
  · rw [getD_set_ne _ 8 6 _ (by decide), getD_set_eq _ _ _ (by omega)]
  · rw [getD_set_eq _ _ _ (by rw [List.length_set]; omega), getD_set_ne _ 6 8 _ (by decide)]
  · intro i h6 h8
    rw [getD_set_ne _ 8 i _ (Ne.symm h8), getD_set_ne _ 6 i _ (Ne.symm h6)]

theorem fixed_bits :
    (∀ y < 16, (0x40 ||| y) &&& 0xf0 = 0x40) ∧ (∀ y < 64, (0x80 ||| y) &&& 0xc0 = 0x80) := by
  decide

theorem setVersionVariant_bits (l : List Nat) (h : l.length = 16) :
    (setVersionVariant l).getD 6 0 &&& 0xF0 = 0x40 ∧
    (setVersionVariant l).getD 8 0 &&& 0xC0 = 0x80 := by
  obtain ⟨e6, e8, _⟩ := setVersionVariant_getD l h
  rw [e6, e8]
  exact ⟨fixed_bits.1 _ (Nat.and_lt_two_pow _ (n := 4) (by decide)),
    fixed_bits.2 _ (Nat.and_lt_two_pow _ (n := 6) (by decide))⟩

theorem NewUUIDv4Reader_of_ReadFull (fuel : Nat) (r r1 : Reader) (buf : List Nat) (n : Nat)
    (h : ReadFull fuel r zeroUUID = Except.ok ((buf, n, none), r1)) :
    NewUUIDv4Reader fuel r = Except.ok ((setVersionVariant buf, none), r1) := by
  unfold NewUUIDv4Reader
  rw [h]

theorem NewUUIDv4Reader_ok (fuel : Nat) (r r1 : Reader) (id : UUIDv4)
    (h : NewUUIDv4Reader fuel r = Except.ok ((id, none), r1)) :
    ∃ buf, buf.length = 16 ∧ id = setVersionVariant buf := by
  unfold NewUUIDv4Reader at h
  cases hr : ReadFull fuel r zeroUUID with
  | error f => rw [hr] at h; cases h
  | ok v =>
    obtain ⟨⟨buf, n, e⟩, r2⟩ := v
    have hl := ReadFull_length _ _ _ _ _ hr
    rw [hr] at h
    cases e with
    | some e => cases h
    | none =>
      cases h
      exact ⟨buf, hl, rfl⟩

theorem serve_ok (w w1 : World) (res : List Nat) (e : Option Error)
    (h : randomPool.serve w = Except.ok ((res, e), w1)) : res.length = 16 := by
  unfold randomPool.serve at h
  simp only at h
  split_ifs at h
  cases h
  exact copy_length _ _

theorem next_ok (fuel : Nat) (w w1 : World) (res : List Nat)
    (h : randomPool.next fuel w = Except.ok ((res, none), w1)) : res.length = 16 := by
  unfold randomPool.next at h
  split_ifs at h
  · cases hr : ReadFull fuel w.randomSource (w.pool.buffer.getD []) with
    | error f => rw [hr] at h; cases h
    | ok v =>
      obtain ⟨⟨buf, n, e⟩, r2⟩ := v
      rw [hr] at h
      cases e with
      | some e => cases h
      | none => exact serve_ok _ _ _ _ h
  · exact serve_ok _ _ _ _ h

theorem newUUIDv4FromPool_ok (fuel : Nat) (w w1 : World) (id : UUIDv4)
    (h : newUUIDv4FromPool fuel w = Except.ok ((id, none), w1)) :
    ∃ res, res.length = 16 ∧ id = setVersionVariant res := by
  unfold newUUIDv4FromPool at h
  cases hn : randomPool.next fuel w with
  | error f => rw [hn] at h; cases h
  | ok v =>
    obtain ⟨⟨res, e⟩, w2⟩ := v
    rw [hn] at h
    cases e with
    | some e => cases h
    | none =>
      cases h
      exact ⟨res, next_ok _ _ _ _ hn, rfl⟩

theorem NewUUIDv4_ok (fuel : Nat) (w w1 : World) (id : UUIDv4)
    (h : NewUUIDv4 fuel w = Except.ok ((id, none), w1)) :
    ∃ res, res.length = 16 ∧ id = setVersionVariant res := by
  unfold NewUUIDv4 at h
  split_ifs at h
  · exact newUUIDv4FromPool_ok _ _ _ _ h
  · cases hr : NewUUIDv4Reader fuel w.randomSource with
    | error f => rw [hr] at h; cases h
    | ok v =>
      obtain ⟨⟨id1, e⟩, r2⟩ := v
      rw [hr] at h
      cases h
      exact NewUUIDv4Reader_ok _ _ _ _ hr

theorem readLoop_done (min fuel : Nat) (r : Reader) (buf : List Nat) (n : Nat)
    (err : Option Error) (h : ¬ (n < min ∧ err = none)) :
    readLoop min fuel r buf n err = Except.ok ((buf, n, err), r) := by
  cases fuel <;> (unfold readLoop; rw [if_neg h])

theorem byteReaderAt_call (b c : Nat) (p : List Nat) :
    (byteReaderAt b c).call p =
      ((List.replicate p.length b, p.length, none), byteReaderAt b (c + p.length)) := by
  unfold Reader.call byteReaderAt copy
  simp

theorem ReadFull_byteReaderAt (fuel b c : Nat) (buf : List Nat) :
    ReadFull (fuel + 1) (byteReaderAt b c) buf =
      Except.ok ((List.replicate buf.length b, buf.length, none),
        byteReaderAt b (c + buf.length)) := by
  unfold ReadFull ReadAtLeast
  rw [if_neg (lt_irrefl _)]
  by_cases h : 0 < buf.length
  · unfold readLoop
    rw [if_pos ⟨h, rfl⟩, byteReaderAt_call]
    simp only [List.drop_zero, List.take_zero, List.nil_append, Nat.zero_add]
    rw [readLoop_done _ _ _ _ _ _ (by simp)]
    simp
  · have h0 : buf.length = 0 := by omega
    have hb : buf = [] := List.length_eq_zero.1 h0
    subst hb
    rw [readLoop_done _ _ _ _ _ _ (by simp)]
    rfl

theorem next_refill (fuel : Nat) (w : World) (b0 buf : List Nat) (n : Nat) (src1 : Reader)
    (hb : w.pool.buffer = some b0) (hi : w.pool.index = b0.length) (h16 : 16 ≤ b0.length)
    (hr : ReadFull fuel w.randomSource b0 = Except.ok ((buf, n, none), src1)) :
    randomPool.next fuel w =
      Except.ok ((buf.take 16, none),
        { randomSource := src1, pool := { buffer := some buf, index := 16 } }) := by
  have hl : buf.length = b0.length := ReadFull_length _ _ _ _ _ hr
  unfold randomPool.next
  rw [hb, Option.getD_some, if_pos hi, hr]
  simp only [Option.map_some']
  unfold randomPool.serve
  simp only [Option.getD_some, Nat.zero_add, List.drop_zero]
  rw [if_pos (by omega), copy_zeroUUID _ (by rw [List.length_take]; omega)]

theorem newUUIDv4FromPool_of_next (fuel : Nat) (w w1 : World) (res : List Nat)
    (h : randomPool.next fuel w = Except.ok ((res, none), w1)) :
    newUUIDv4FromPool fuel w = Except.ok ((setVersionVariant res, none), w1) := by
  unfold newUUIDv4FromPool
  rw [h]

set_option maxRecDepth 100000 in
theorem constant_bits : ∀ b < 256,
    (0x40 ||| (b &&& 0x0f)) / 16 = 4 ∧ (0x40 ||| (b &&& 0x0f)) % 16 = b % 16 ∧
    (0x80 ||| (b &&& 0x3f)) / 16 = 8 + b / 16 % 4 ∧ (0x80 ||| (b &&& 0x3f)) % 16 = b % 16 ∧
    (0x40 ||| (b &&& 0x0f)) < 256 ∧ (0x80 ||| (b &&& 0x3f)) < 256 := by
  decide

theorem setVersionVariant_replicate (b : Nat) :
    setVersionVariant (List.replicate 16 b) =
      [b, b, b, b, b, b, 0x40 ||| (b &&& 0x0f), b, 0x80 ||| (b &&& 0x3f), b, b, b, b, b, b, b] :=
  rfl

theorem String_constant (b : Nat) (hb : b < 256) :
    UUIDv4.String (setVersionVariant (List.replicate 16 b)) = some (constantText b) := by
  obtain ⟨c1, c2, c3, c4, c5, c6⟩ := constant_bits b hb
  rw [setVersionVariant_replicate, String_eq_rendered]
  · unfold rendered constantText
    simp only [List.getD_cons_zero, List.getD_cons_succ, c1, c2, c3, c4]
    rfl
  · intro x hx
    simp only [List.mem_cons, List.mem_singleton, List.not_mem_nil, or_false] at hx
    rcases hx with rfl | rfl | rfl | rfl | rfl | rfl | rfl | rfl | rfl | rfl | rfl | rfl |
      rfl | rfl | rfl | rfl <;> assumption

theorem NewUUIDv4Reader_byteReader (fuel b : Nat) :
    NewUUIDv4Reader (fuel + 1) (byteReader b) =
      Except.ok ((setVersionVariant (List.replicate 16 b), none), byteReaderAt b 16) := by
  have := ReadFull_byteReaderAt fuel b 0 zeroUUID
  rw [show zeroUUID.length = 16 from rfl, Nat.zero_add] at this
  exact NewUUIDv4Reader_of_ReadFull _ _ _ _ _ this

theorem NewUUIDv4_pooledWorld (fuel b : Nat) :
    NewUUIDv4 (fuel + 1) (pooledWorld b) =
      Except.ok ((setVersionVariant (List.replicate 16 b), none),
        { randomSource := byteReaderAt b 1024,
          pool := { buffer := some (List.replicate 1024 b), index := 16 } }) := by
  have hr := ReadFull_byteReaderAt fuel b 0 (List.replicate 1024 0)
  rw [List.length_replicate, Nat.zero_add] at hr
  have hn := next_refill (fuel + 1) (pooledWorld b) (List.replicate 1024 0)
    (List.replicate 1024 b) 1024 (byteReaderAt b 1024) rfl
    (by rw [List.length_replicate]; rfl) (by rw [List.length_replicate]; decide) hr
  have ht : (List.replicate 1024 b).take 16 = List.replicate 16 b := by
    rw [List.take_replicate]
    rfl
  rw [ht] at hn
  unfold NewUUIDv4
  rw [if_pos (show usingPool (pooledWorld b) = true from rfl)]
  exact newUUIDv4FromPool_of_next _ _ _ _ hn

/-! ## `io.ReadFull` and the pool -/

theorem ReadFull_of_readLoop (fuel : Nat) (r r1 : Reader) (buf buf1 : List Nat) (n : Nat)
    (err : Option Error)
    (h : readLoop buf.length fuel r buf 0 none = Except.ok ((buf1, n, err), r1)) :
    ReadFull fuel r buf =
      Except.ok ((buf1, n,
        if n ≥ buf.length then none
        else if n > 0 ∧ err = some Error.EOF then some Error.ErrUnexpectedEOF
        else err), r1) := by
  unfold ReadFull ReadAtLeast
  rw [if_neg (lt_irrefl _), h]
  simp only
  split_ifs <;> rfl

theorem ReadFull_failed (fuel : Nat) (r r1 : Reader) (buf buf1 : List Nat) (n : Nat)
    (e : Error)
    (h : readLoop buf.length fuel r buf 0 none = Except.ok ((buf1, n, some e), r1))
    (hn : n < buf.length) :
    ReadFull fuel r buf = Except.ok ((buf1, n, some (reportedError n e)), r1) := by
  rw [ReadFull_of_readLoop fuel r r1 buf buf1 n (some e) h, if_neg (by omega)]
  unfold reportedError
  by_cases hc : 0 < n ∧ e = Error.EOF
  · rw [if_pos ⟨hc.1, by rw [hc.2]⟩, if_pos hc]
  · rw [if_neg (fun h => hc ⟨h.1, Option.some.inj h.2⟩), if_neg hc]

theorem NewUUIDv4Reader_of_failed (fuel : Nat) (r r1 : Reader) (buf : List Nat) (n : Nat)
    (e : Error) (h : ReadFull fuel r zeroUUID = Except.ok ((buf, n, some e), r1)) :
    NewUUIDv4Reader fuel r = Except.ok ((buf, some e), r1) := by
  unfold NewUUIDv4Reader
  rw [h]

theorem next_refill_failed (fuel : Nat) (w : World) (b0 buf : List Nat) (n : Nat) (e : Error)
    (src1 : Reader) (hb : w.pool.buffer = some b0) (hi : w.pool.index = b0.length)
    (hr : ReadFull fuel w.randomSource b0 = Except.ok ((buf, n, some e), src1)) :
    randomPool.next fuel w =
      Except.ok ((zeroUUID, some e),
        { randomSource := src1, pool := { buffer := some buf, index := b0.length } }) := by
  unfold randomPool.next
  rw [hb, Option.getD_some, if_pos hi, hr]
  simp only [Option.map_some', hi]

theorem next_served (fuel : Nat) (w : World) (b0 : List Nat)
    (hb : w.pool.buffer = some b0) (hi : w.pool.index ≠ b0.length)
    (h16 : w.pool.index + 16 ≤ b0.length) :
    randomPool.next fuel w =
      Except.ok (((b0.drop w.pool.index).take 16, none),
        { randomSource := w.randomSource,
          pool := { buffer := some b0, index := w.pool.index + 16 } }) := by
  unfold randomPool.next
  rw [hb, Option.getD_some, if_neg hi]
  unfold randomPool.serve
  rw [hb, Option.getD_some, if_pos h16,
    copy_zeroUUID _ (by rw [List.length_take, List.length_drop]; omega)]
  simp only [hb]

theorem newUUIDv4FromPool_of_failed (fuel : Nat) (w w1 : World) (res : List Nat) (e : Error)
    (h : randomPool.next fuel w = Except.ok ((res, some e), w1)) :
    newUUIDv4FromPool fuel w = Except.ok ((zeroUUID, some e), w1) := by
  unfold newUUIDv4FromPool
  rw [h]

theorem NewUUIDv4_pooled (fuel : Nat) (w : World) (b0 : List Nat)
    (hb : w.pool.buffer = some b0) : NewUUIDv4 fuel w = newUUIDv4FromPool fuel w := by
  unfold NewUUIDv4 usingPool
  rw [hb]
  rfl

theorem NewUUIDv4_direct (fuel : Nat) (w : World) (hb : w.pool.buffer = none) :
    NewUUIDv4 fuel w =
      match NewUUIDv4Reader fuel w.randomSource with
      | Except.error f => Except.error f
      | Except.ok (out, r1) => Except.ok (out, { w with randomSource := r1 }) := by
  unfold NewUUIDv4 usingPool
  rw [hb]
  rfl

theorem ReadFull_errorReader (fuel : Nat) (e : Error) (buf : List Nat) (h : 0 < buf.length) :
    ReadFull (fuel + 1) (errorReader e) buf =
      Except.ok ((buf, 0, some e), errorReader e) := by
  have hl : readLoop buf.length (fuel + 1) (errorReader e) buf 0 none =
      Except.ok ((buf, 0, some e), errorReader e) := by
    unfold readLoop
    rw [if_pos ⟨h, rfl⟩]
    have hc : (errorReader e).call (buf.drop 0) = ((buf, 0, some e), errorReader e) := by
      unfold Reader.call errorReader copy
      simp
    rw [hc]
    simp only [List.take_zero, List.nil_append, Nat.add_zero]
    exact readLoop_done _ _ _ _ _ _ (by simp)
  rw [ReadFull_failed _ _ _ _ _ _ _ hl h]
  rfl

theorem length_replicate_1024 (b : Nat) : (List.replicate 1024 b).length = 1024 :=
  List.length_replicate _ _

theorem Reader.call_n_le (r : Reader) (p : List Nat) : (r.call p).1.2.1 ≤ p.length := by
  unfold Reader.call
  simp only [List.length_take]
  omega

theorem readLoop_exit (min : Nat) :
    ∀ (fuel : Nat) (r : Reader) (buf : List Nat) (n : Nat) (err : Option Error)
      (out : List Nat × Nat × Option Error) (r1 : Reader),
      n ≤ buf.length →
      readLoop min fuel r buf n err = Except.ok (out, r1) →
      out.2.1 ≤ buf.length ∧ ¬ (out.2.1 < min ∧ out.2.2 = none) := by
  intro fuel
  induction fuel with
  | zero =>
    intro r buf n err out r1 hn h
    unfold readLoop at h
    split_ifs at h with hc
    cases h
    exact ⟨hn, hc⟩
  | succ fuel ih =>
    intro r buf n err out r1 hn h
    unfold readLoop at h
    split_ifs at h with hc
    · have hc1 := Reader.call_n_le r (buf.drop n)
      have hc2 := Reader.call_length r (buf.drop n)
      rw [List.length_drop] at hc1 hc2
      have hl : (buf.take n ++ (r.call (buf.drop n)).1.1).length = buf.length := by
        rw [List.length_append, List.length_take, hc2]
        omega
      have := ih _ _ _ _ _ _ (by rw [hl]; omega) h
      rw [hl] at this
      exact this
    · cases h
      exact ⟨hn, hc⟩

theorem ReadFull_ok_n (fuel : Nat) (r r1 : Reader) (buf buf1 : List Nat) (n : Nat)
    (h : ReadFull fuel r buf = Except.ok ((buf1, n, none), r1)) : n = buf.length := by
  unfold ReadFull ReadAtLeast at h
  rw [if_neg (lt_irrefl _)] at h
  cases hl : readLoop buf.length fuel r buf 0 none with
  | error f => rw [hl] at h; cases h
  | ok v =>
    obtain ⟨⟨b1, m, e⟩, r2⟩ := v
    obtain ⟨h1, h2⟩ := readLoop_exit _ _ _ _ _ _ _ _ (Nat.zero_le _) hl
    rw [hl] at h
    simp only at h h1 h2
    split_ifs at h with c1 c2
    · cases h
      omega
    · cases h
    · cases h
      exact absurd ⟨by omega, rfl⟩ h2

theorem drop_take_replicate (b i : Nat) (h : i + 16 ≤ 1024) :
    ((List.replicate 1024 b).drop i).take 16 = List.replicate 16 b := by
  rw [List.drop_replicate, List.take_replicate]
  congr 1
  omega

theorem NewUUIDv4_direct_ok (fuel : Nat) (w : World) (buf : List Nat) (n : Nat)
    (r1 : Reader) (hb : w.pool.buffer = none)
    (h : ReadFull fuel w.randomSource zeroUUID = Except.ok ((buf, n, none), r1)) :
    NewUUIDv4 fuel w =
      Except.ok ((setVersionVariant buf, none), { w with randomSource := r1 }) := by
  rw [NewUUIDv4_direct fuel w hb, NewUUIDv4Reader_of_ReadFull _ _ _ _ _ h]

theorem NewUUIDv4_served (fuel : Nat) (w : World) (b0 : List Nat)
    (hb : w.pool.buffer = some b0) (hi : w.pool.index ≠ b0.length)
    (h16 : w.pool.index + 16 ≤ b0.length) :
    NewUUIDv4 fuel w =
      Except.ok ((setVersionVariant ((b0.drop w.pool.index).take 16), none),
        { randomSource := w.randomSource,
          pool := { buffer := some b0, index := w.pool.index + 16 } }) := by
  rw [NewUUIDv4_pooled fuel w b0 hb]
  exact newUUIDv4FromPool_of_next _ _ _ _ (next_served fuel w b0 hb hi h16)

theorem NewUUIDv4_refilled (fuel : Nat) (w : World) (b0 buf : List Nat) (n : Nat)
    (r1 : Reader) (hb : w.pool.buffer = some b0) (hi : w.pool.index = b0.length)
    (h16 : 16 ≤ b0.length)
    (hr : ReadFull fuel w.randomSource b0 = Except.ok ((buf, n, none), r1)) :
    NewUUIDv4 fuel w =
      Except.ok ((setVersionVariant (buf.take 16), none),
        { randomSource := r1, pool := { buffer := some buf, index := 16 } }) := by
  rw [NewUUIDv4_pooled fuel w b0 hb]
  exact newUUIDv4FromPool_of_next _ _ _ _ (next_refill fuel w b0 buf n r1 hb hi h16 hr)

/-! ## Reachable pool states -/

theorem readLoop_error (min : Nat) :
    ∀ (fuel : Nat) (r : Reader) (buf : List Nat) (n : Nat) (err : Option Error) (f : Fault),
      readLoop min fuel r buf n err = Except.error f → f = Fault.outOfFuel := by
  intro fuel
  induction fuel with
  | zero =>
    intro r buf n err f h
    unfold readLoop at h
    split_ifs at h
    cases h
    rfl
  | succ fuel ih =>
    intro r buf n err f h
    unfold readLoop at h
    split_ifs at h
    exact ih _ _ _ _ _ h

theorem ReadFull_error (fuel : Nat) (r : Reader) (buf : List Nat) (f : Fault)
    (h : ReadFull fuel r buf = Except.error f) : f = Fault.outOfFuel := by
  unfold ReadFull ReadAtLeast at h
  rw [if_neg (lt_irrefl _)] at h
  cases hl : readLoop buf.length fuel r buf 0 none with
  | error g =>
    rw [hl] at h
    cases h
    exact readLoop_error _ _ _ _ _ _ _ hl
  | ok v =>
    obtain ⟨⟨b1, m, e⟩, r2⟩ := v
    rw [hl] at h
    simp only at h
    split_ifs at h

theorem next_error_of_ReadFull (fuel : Nat) (w : World) (b0 : List Nat) (f : Fault)
    (hb : w.pool.buffer = some b0) (hi : w.pool.index = b0.length)
    (hr : ReadFull fuel w.randomSource b0 = Except.error f) :
    randomPool.next fuel w = Except.error f := by
  unfold randomPool.next
  rw [hb, Option.getD_some, if_pos hi, hr]

/-- The outcome of `pool.next` in a state that satisfies the invariant with the buffer
present: it does not panic, and the state it leaves satisfies the invariant. -/
theorem next_cases (fuel : Nat) (w : World) (b0 : List Nat)
    (hb : w.pool.buffer = some b0) (hl : b0.length = 1024) (hi : w.pool.index ≤ 1024)
    (hd : 16 ∣ w.pool.index) :
    randomPool.next fuel w = Except.error Fault.outOfFuel ∨
    ∃ out w1, randomPool.next fuel w = Except.ok (out, w1) ∧ PoolInv w1.pool := by
  by_cases hx : w.pool.index = b0.length
  · cases hr : ReadFull fuel w.randomSource b0 with
    | error f =>
      left
      rw [next_error_of_ReadFull fuel w b0 f hb hx hr, ReadFull_error _ _ _ _ hr]
    | ok v =>
      obtain ⟨⟨buf, n, e⟩, r1⟩ := v
      have hlen : buf.length = b0.length := ReadFull_length _ _ _ _ _ hr
      right
      cases e with
      | some e =>
        refine ⟨_, _, next_refill_failed fuel w b0 buf n e r1 hb hx hr, Or.inr ?_⟩
        exact ⟨buf, rfl, by omega, by simp only; omega, by simp only; rw [hl]; decide⟩
      | none =>
        refine ⟨_, _, next_refill fuel w b0 buf n r1 hb hx (by omega) hr, Or.inr ?_⟩
        exact ⟨buf, rfl, by omega, (by decide : 16 ≤ 1024), (by decide : 16 ∣ 16)⟩
  · have h16 : w.pool.index + 16 ≤ b0.length := by
      obtain ⟨k, hk⟩ := hd
      omega
    right
    refine ⟨_, _, next_served fuel w b0 hb hx h16, Or.inr ?_⟩
    exact ⟨b0, rfl, hl, by simp only; omega, by simp only; omega⟩

theorem newUUIDv4FromPool_cases (fuel : Nat) (w : World)
    (h : randomPool.next fuel w = Except.error Fault.outOfFuel ∨
      ∃ out w1, randomPool.next fuel w = Except.ok (out, w1) ∧ PoolInv w1.pool) :
    newUUIDv4FromPool fuel w = Except.error Fault.outOfFuel ∨
    ∃ out w1, newUUIDv4FromPool fuel w = Except.ok (out, w1) ∧ PoolInv w1.pool := by
  rcases h with h | ⟨⟨res, e⟩, w1, h, hp⟩
  · left
    unfold newUUIDv4FromPool
    rw [h]
  · right
    cases e with
    | some e => exact ⟨_, _, newUUIDv4FromPool_of_failed _ _ _ _ _ h, hp⟩
    | none => exact ⟨_, _, newUUIDv4FromPool_of_next _ _ _ _ h, hp⟩

theorem NewUUIDv4Reader_error (fuel : Nat) (r : Reader) (f : Fault)
    (h : NewUUIDv4Reader fuel r = Except.error f) : f = Fault.outOfFuel := by
  unfold NewUUIDv4Reader at h
  cases hr : ReadFull fuel r zeroUUID with
  | error g =>
    rw [hr] at h
    cases h
    exact ReadFull_error _ _ _ _ hr
  | ok v =>
    obtain ⟨⟨buf, n, e⟩, r1⟩ := v
    rw [hr] at h
    cases e <;> cases h

theorem NewUUIDv4_cases (fuel : Nat) (w : World) (hp : PoolInv w.pool) :
    NewUUIDv4 fuel w = Except.error Fault.outOfFuel ∨
    ∃ out w1, NewUUIDv4 fuel w = Except.ok (out, w1) ∧ PoolInv w1.pool := by
  rcases hp with ⟨hb, hi⟩ | ⟨b0, hb, hl, hi, hd⟩
  · rw [NewUUIDv4_direct fuel w hb]
    cases hr : NewUUIDv4Reader fuel w.randomSource with
    | error f =>
      left
      rw [NewUUIDv4Reader_error _ _ _ hr]
    | ok v =>
      obtain ⟨out, r1⟩ := v
      right
      exact ⟨_, _, rfl, Or.inl ⟨hb, hi⟩⟩
  · rw [NewUUIDv4_pooled fuel w b0 hb]
    exact newUUIDv4FromPool_cases fuel w (next_cases fuel w b0 hb hl hi hd)

theorem EnableRandomPool_eq (w : World) :
    (w.pool.buffer = none →
      EnableRandomPool w =
        { randomSource := w.randomSource,
          pool := { buffer := some (List.replicate 1024 0), index := 1024 } }) ∧
    (∀ b, w.pool.buffer = some b → EnableRandomPool w = w) := by
  refine ⟨?_, ?_⟩
  · intro h
    unfold EnableRandomPool
    rw [h]
    rfl
  · intro b h
    unfold EnableRandomPool
    rw [h]
    rfl

theorem PoolInv_EnableRandomPool (w : World) (hp : PoolInv w.pool) :
    PoolInv (EnableRandomPool w).pool := by
  cases hb : w.pool.buffer with
  | none =>
    rw [((EnableRandomPool_eq w).1 hb)]
    exact Or.inr ⟨_, rfl, length_replicate_1024 0, le_refl _, (by decide : 16 ∣ 1024)⟩
  | some b =>
    rw [(EnableRandomPool_eq w).2 b hb]
    exact hp

theorem reachable_PoolInv (w : World) (h : Reachable w) : PoolInv w.pool := by
  induction h with
  | init r => exact Or.inl ⟨rfl, rfl⟩
  | enable w _ ih => exact PoolInv_EnableRandomPool w ih
  | disable w _ _ => exact Or.inl ⟨rfl, rfl⟩
  | setSource r w _ ih => exact ih
  | newUUIDv4 fuel w w1 out _ hn ih =>
    rcases NewUUIDv4_cases fuel w ih with h | ⟨out2, w2, h, hp⟩
    · rw [h] at hn
      cases hn
    · rw [h] at hn
      cases hn
      exact hp

theorem ReadFull_nil (fuel : Nat) (r : Reader) :
    ReadFull fuel r [] = Except.ok (([], 0, none), r) := by
  have h : readLoop ([] : List Nat).length fuel r [] 0 none = Except.ok (([], 0, none), r) :=
    readLoop_done _ _ _ _ _ _ (by simp)
  rw [ReadFull_of_readLoop fuel r r [] [] 0 none h]
  rfl

theorem next_disabled (fuel : Nat) (r : Reader) :
    randomPool.next fuel { randomSource := r, pool := { buffer := none, index := 0 } } =
      Except.error Fault.outOfRange := by
  unfold randomPool.next
  simp only [Option.getD_none, List.length_nil, if_true, ReadFull_nil, Option.map_none']
  rfl

theorem reachable_staleWorld : Reachable staleWorld :=
  Reachable.newUUIDv4 1 (pooledWorld 2) staleWorld _
    (Reachable.enable _ (Reachable.init (byteReader 2))) (NewUUIDv4_pooledWorld 0 2)

theorem next_refill_serve (fuel : Nat) (w : World) (b0 buf : List Nat) (n : Nat)
    (r1 : Reader) (hb : w.pool.buffer = some b0) (hi : w.pool.index = b0.length)
    (hr : ReadFull fuel w.randomSource b0 = Except.ok ((buf, n, none), r1)) :
    randomPool.next fuel w =
      randomPool.serve
        { randomSource := r1, pool := { buffer := some buf, index := 0 } } := by
  unfold randomPool.next
  rw [hb, Option.getD_some, if_pos hi, hr]
  rfl

/-! ## Rendering then parsing -/

set_option maxRecDepth 100000 in
theorem parse_rendered_byte : ∀ x < 256,
    (parseHexPair (hexDigit (x / 16)) (hexDigit (x % 16)) false).1 = x ∧
    isHexDigit (hexDigit (x / 16)) = true ∧ isHexDigit (hexDigit (x % 16)) = true := by
  decide

theorem decodedBytes_rendered (a : List Nat) (hl : a.length = 16) (hb : IsBytes a) :
    decodedBytes (rendered a) = a := by
  have B := fun k => parse_rendered_byte (a.getD k 0) (getD_lt_of_isBytes a hb k)
  have hs := list_eq_map_getD a 16 hl
  simp only [List.range, List.range.loop, List.map] at hs
  unfold decodedBytes pairPositions rendered
  simp only [List.map, List.getD_cons_zero, List.getD_cons_succ]
  simp only [(B 0).1, (B 1).1, (B 2).1, (B 3).1, (B 4).1, (B 5).1, (B 6).1, (B 7).1, (B 8).1, (B 9).1, (B 10).1, (B 11).1, (B 12).1, (B 13).1, (B 14).1, (B 15).1]
  exact hs.symm

theorem structurallyValid_rendered (a : List Nat) (hb : IsBytes a) :
    StructurallyValid (rendered a) := by
  have B := fun k => parse_rendered_byte (a.getD k 0) (getD_lt_of_isBytes a hb k)
  rw [structurallyValid_iff]
  refine ⟨rfl, rfl, ?_⟩
  unfold anyNonHex pairPositions rendered
  simp only [List.any_cons, List.any_nil, List.getD_cons_zero, List.getD_cons_succ]
  simp only [(B 0).2.1, (B 0).2.2, (B 1).2.1, (B 1).2.2, (B 2).2.1, (B 2).2.2, (B 3).2.1, (B 3).2.2, (B 4).2.1, (B 4).2.2, (B 5).2.1, (B 5).2.2, (B 6).2.1, (B 6).2.2, (B 7).2.1, (B 7).2.2, (B 8).2.1, (B 8).2.2, (B 9).2.1, (B 9).2.2, (B 10).2.1, (B 10).2.2, (B 11).2.1, (B 11).2.2, (B 12).2.1, (B 12).2.2, (B 13).2.1, (B 13).2.2, (B 14).2.1, (B 14).2.2, (B 15).2.1, (B 15).2.2]
  rfl

theorem ParseUUIDv4_rendered (a : List Nat) (hl : a.length = 16) (hb : IsBytes a) :
    ParseUUIDv4 (rendered a) = some (FromBytes a) := by
  rw [ParseUUIDv4_valid _ (structurallyValid_rendered a hb), decodedBytes_rendered a hl hb,
    FromBytes_16 a hl]

/-! ## Stream sources -/

theorem streamBytes_length (s : Nat → Nat) (len : Nat) :
    ∀ p, (streamBytes s p len).length = len := by
  induction len with
  | zero => intro p; rfl
  | succ len ih =>
    intro p
    unfold streamBytes
    rw [List.length_cons, ih]

theorem streamBytes_append (s : Nat → Nat) (a b : Nat) :
    ∀ p, streamBytes s p (a + b) = streamBytes s p a ++ streamBytes s (p + a) b := by
  induction a with
  | zero =>
    intro p
    rw [Nat.zero_add]
    rfl
  | succ a ih =>
    intro p
    have e : p + 1 + a = p + (a + 1) := by omega
    rw [Nat.add_right_comm a 1 b]
    show s p :: streamBytes s (p + 1) (a + b) =
      (s p :: streamBytes s (p + 1) a) ++ streamBytes s (p + (a + 1)) b
    rw [ih (p + 1), List.cons_append, e]

theorem streamBytes_take (s : Nat → Nat) (p k len : Nat) (h : k ≤ len) :
    (streamBytes s p len).take k = streamBytes s p k := by
  obtain ⟨c, rfl⟩ := Nat.exists_eq_add_of_le h
  rw [streamBytes_append, List.take_left' (streamBytes_length s k p)]

theorem streamBytes_drop (s : Nat → Nat) (p k len : Nat) (h : k ≤ len) :
    (streamBytes s p len).drop k = streamBytes s (p + k) (len - k) := by
  obtain ⟨c, rfl⟩ := Nat.exists_eq_add_of_le h
  rw [streamBytes_append, List.drop_left' (streamBytes_length s k p), Nat.add_sub_cancel_left]

theorem delivered_bounds (chunk : Nat → Nat → Nat) (pos n : Nat) (h : 0 < n) :
    0 < delivered chunk pos n ∧ delivered chunk pos n ≤ n := by
  unfold delivered
  rw [if_neg (by omega)]
  omega

theorem streamReader_call (s : Nat → Nat) (chunk : Nat → Nat → Nat) (q : Nat) (p : List Nat)
    (h : 0 < p.length) :
    (streamReader s chunk q).call p =
      ((streamBytes s q (delivered chunk q p.length) ++ p.drop (delivered chunk q p.length),
        delivered chunk q p.length, none),
       streamReader s chunk (q + delivered chunk q p.length)) := by
  have hd := delivered_bounds chunk q p.length h
  have hl := streamBytes_length s (delivered chunk q p.length) q
  have ht : (streamBytes s q (delivered chunk q p.length)).take p.length =
      streamBytes s q (delivered chunk q p.length) :=
    List.take_of_length_le (by rw [hl]; exact hd.2)
  simp only [Reader.call, streamReader, copy, ht, hl]

theorem readLoop_stream (s : Nat → Nat) (chunk : Nat → Nat → Nat) (p L : Nat) :
    ∀ (fuel n : Nat) (buf : List Nat), buf.length = L → n ≤ L →
      buf.take n = streamBytes s p n → L - n ≤ fuel →
      readLoop L fuel (streamReader s chunk (p + n)) buf n none =
        Except.ok ((streamBytes s p L, L, none), streamReader s chunk (p + L)) := by
  intro fuel
  induction fuel with
  | zero =>
    intro n buf hl hn ht hf
    have e : n = L := by omega
    subst e
    rw [readLoop_done _ _ _ _ _ _ (by simp), ← ht, ← hl, List.take_length]
  | succ fuel ih =>
    intro n buf hl hn ht hf
    by_cases e : n = L
    · subst e
      rw [readLoop_done _ _ _ _ _ _ (by simp), ← ht, ← hl, List.take_length]
    · have hlt : n < L := by omega
      have hk : 0 < (buf.drop n).length := by rw [List.length_drop]; omega
      have hd := delivered_bounds chunk (p + n) (buf.drop n).length hk
      rw [List.length_drop] at hd
      unfold readLoop
      rw [if_pos ⟨hlt, rfl⟩, streamReader_call s chunk (p + n) (buf.drop n) hk]
      simp only [List.length_drop, List.drop_drop]
      have hsum : p + n + delivered chunk (p + n) (buf.length - n) =
          p + (n + delivered chunk (p + n) (buf.length - n)) := by omega
      rw [hsum]
      apply ih
      · rw [List.length_append, List.length_append, List.length_take, List.length_drop,
          streamBytes_length]
        omega
      · omega
      · rw [← List.append_assoc, List.take_left']
        · rw [ht, ← streamBytes_append]
        · rw [List.length_append, List.length_take, streamBytes_length]
          omega
      · omega

theorem ReadFull_stream (s : Nat → Nat) (chunk : Nat → Nat → Nat) (p fuel : Nat)
    (buf : List Nat) (hf : buf.length ≤ fuel) :
    ReadFull fuel (streamReader s chunk p) buf =
      Except.ok ((streamBytes s p buf.length, buf.length, none),
        streamReader s chunk (p + buf.length)) := by
  have h := readLoop_stream s chunk p buf.length fuel 0 buf rfl (Nat.zero_le _) rfl
    (by omega)
  rw [Nat.add_zero] at h
  rw [ReadFull_of_readLoop fuel _ _ buf _ _ _ h, if_pos (le_refl _)]

theorem generate_steps (fuel : Nat) (W : Nat → World) (U : Nat → UUIDv4)
    (h : ∀ k, NewUUIDv4 fuel (W k) = Except.ok ((U k, none), W (k + 1))) :
    ∀ n m, generate fuel n (W m) =
      Except.ok ((List.range n).map (fun k => (U (m + k), none)), W (m + n)) := by
  intro n
  induction n with
  | zero => intro m; rfl
  | succ n ih =>
    intro m
    have e : m + 1 + n = m + (n + 1) := by omega
    have hm : (List.range (n + 1)).map (fun k => ((U (m + k), none) : UUIDv4 × Option Error)) =
        (U m, none) :: (List.range n).map (fun k => (U (m + 1 + k), none)) := by
      rw [List.range_succ_eq_map, List.map_cons, List.map_map]
      congr 1
      apply List.map_congr_left
      intro k _
      show (U (m + (k + 1)), none) = (U (m + 1 + k), none)
      have e2 : m + (k + 1) = m + 1 + k := by omega
      rw [e2]
    unfold generate
    rw [h m]
    simp only
    rw [ih (m + 1), hm, e]

theorem pooledStreamAfter_pos (s : Nat → Nat) (chunk : Nat → Nat → Nat) (n a b c : Nat)
    (hn : 0 < n) (ha : a = 1024 * ((n + 63) / 64)) (hb : b = 1024 * ((n + 63) / 64 - 1))
    (hc : c = 16 * n - 1024 * ((n + 63) / 64 - 1)) :
    pooledStreamAfter s chunk n =
      { randomSource := streamReader s chunk a,
        pool := { buffer := some (streamBytes s b 1024), index := c } } := by
  subst ha hb hc
  unfold pooledStreamAfter
  rw [if_neg (by omega)]

theorem step_direct (s : Nat → Nat) (chunk : Nat → Nat → Nat) (fuel n : Nat)
    (hf : 16 ≤ fuel) :
    NewUUIDv4 fuel (directStreamAfter s chunk n) =
      Except.ok ((streamUUID s n, none), directStreamAfter s chunk (n + 1)) := by
  have hr := ReadFull_stream s chunk (16 * n) fuel zeroUUID hf
  have hz : zeroUUID.length = 16 := rfl
  rw [hz] at hr
  rw [NewUUIDv4_direct_ok fuel (directStreamAfter s chunk n) _ 16 _ rfl hr]
  rfl

theorem step_pooled_zero (s : Nat → Nat) (chunk : Nat → Nat → Nat) (fuel : Nat)
    (hf : 1024 ≤ fuel) :
    NewUUIDv4 fuel (pooledStreamAfter s chunk 0) =
      Except.ok ((streamUUID s 0, none), pooledStreamAfter s chunk 1) := by
  have hr := ReadFull_stream s chunk 0 fuel (List.replicate 1024 0)
    (by rw [length_replicate_1024]; exact hf)
  rw [length_replicate_1024] at hr
  rw [NewUUIDv4_refilled fuel (pooledStreamAfter s chunk 0) (List.replicate 1024 0) _ 1024 _
    rfl (length_replicate_1024 0).symm (by rw [length_replicate_1024]; decide) hr,
    streamBytes_take s 0 16 1024 (by decide)]
  rfl

theorem step_pooled_pos (s : Nat → Nat) (chunk : Nat → Nat → Nat) (fuel n : Nat)
    (hf : 1024 ≤ fuel) (hn : 0 < n) :
    NewUUIDv4 fuel (pooledStreamAfter s chunk n) =
      Except.ok ((streamUUID s n, none), pooledStreamAfter s chunk (n + 1)) := by
  have hw := pooledStreamAfter_pos s chunk n _ _ _ hn rfl rfl rfl
  have hlen := streamBytes_length s 1024 (1024 * ((n + 63) / 64 - 1))
  generalize hq : (n + 63) / 64 = q at hw hlen
  have hq1 : 64 * (q - 1) < n := by omega
  have hq2 : n ≤ 64 * q := by omega
  have hq3 : 1 ≤ q := by omega
  generalize hi : 16 * n - 1024 * (q - 1) = i at hw
  rw [hw]
  by_cases hx : i = 1024
  · have hr := ReadFull_stream s chunk (1024 * q) fuel (streamBytes s (1024 * (q - 1)) 1024)
      (by rw [hlen]; exact hf)
    rw [hlen] at hr
    have hR := NewUUIDv4_refilled fuel
      { randomSource := streamReader s chunk (1024 * q),
        pool := { buffer := some (streamBytes s (1024 * (q - 1)) 1024), index := i } }
      (streamBytes s (1024 * (q - 1)) 1024) (streamBytes s (1024 * q) 1024) 1024
      (streamReader s chunk (1024 * q + 1024)) rfl (by rw [hlen]; exact hx)
      (by rw [hlen]; omega) hr
    rw [hR, streamBytes_take s _ 16 1024 (by omega),
      pooledStreamAfter_pos s chunk (n + 1) (1024 * q + 1024) (1024 * q) 16 (by omega)
        (by omega) (by omega) (by omega)]
    unfold streamUUID
    have e : 1024 * q = 16 * n := by omega
    rw [e]
  · have h16 : i + 16 ≤ 1024 := by omega
    have hS := NewUUIDv4_served fuel
      { randomSource := streamReader s chunk (1024 * q),
        pool := { buffer := some (streamBytes s (1024 * (q - 1)) 1024), index := i } }
      (streamBytes s (1024 * (q - 1)) 1024) rfl (by rw [hlen]; exact hx)
      (by rw [hlen]; exact h16)
    rw [hS, pooledStreamAfter_pos s chunk (n + 1) (1024 * q) (1024 * (q - 1)) (i + 16)
        (by omega) (by omega) (by omega) (by omega)]
    simp only
    rw [streamBytes_drop s _ _ 1024 (by omega), streamBytes_take s _ 16 _ (by omega)]
    unfold streamUUID
    have e : 1024 * (q - 1) + i = 16 * n := by omega
    rw [e]

theorem step_pooled (s : Nat → Nat) (chunk : Nat → Nat → Nat) (fuel n : Nat)
    (hf : 1024 ≤ fuel) :
    NewUUIDv4 fuel (pooledStreamAfter s chunk n) =
      Except.ok ((streamUUID s n, none), pooledStreamAfter s chunk (n + 1)) := by
  rcases Nat.eq_zero_or_pos n with rfl | hn
  · exact step_pooled_zero s chunk fuel hf
  · exact step_pooled_pos s chunk fuel n hf hn

theorem generate_pooled (s : Nat → Nat) (chunk : Nat → Nat → Nat) (fuel n : Nat)
    (hf : 1024 ≤ fuel) :
    generate fuel n (pooledStreamAfter s chunk 0) =
      Except.ok ((List.range n).map (fun k => (streamUUID s k, none)),
        pooledStreamAfter s chunk n) := by
  have h := generate_steps fuel (pooledStreamAfter s chunk) (streamUUID s)
    (fun k => step_pooled s chunk fuel k hf) n 0
  simp only [Nat.zero_add] at h
  exact h

theorem generate_direct (s : Nat → Nat) (chunk : Nat → Nat → Nat) (fuel n : Nat)
    (hf : 16 ≤ fuel) :
    generate fuel n (directStreamAfter s chunk 0) =
      Except.ok ((List.range n).map (fun k => (streamUUID s k, none)),
        directStreamAfter s chunk n) := by
  have h := generate_steps fuel (directStreamAfter s chunk) (streamUUID s)
    (fun k => step_direct s chunk fuel k hf) n 0
  simp only [Nat.zero_add] at h
  exact h

theorem pooledStreamAfter_source (s : Nat → Nat) (chunk : Nat → Nat → Nat) (n : Nat) :
    (pooledStreamAfter s chunk n).randomSource =
      streamReader s chunk (1024 * ((n + 63) / 64)) := by
  rcases Nat.eq_zero_or_pos n with rfl | hn
  · rfl
  · rw [pooledStreamAfter_pos s chunk n _ _ _ hn rfl rfl rfl]

/-! ## The claims -/

/-- C1 (round trip): for every string `s` that `ParseUUIDv4` accepts (nil error),
`String()` of the returned identifier is `s` with every ASCII upper-case letter
replaced by its lower-case letter and every other byte, the four dashes included,
unchanged. -/
theorem C1_String_ParseUUIDv4_eq_toLower (s : List Nat) (id : UUIDv4)
    (h : ParseUUIDv4 s = some (id, none)) :
    UUIDv4.String id = some (s.map toLowerByte) := by
  obtain ⟨hl, hb, ha, hv⟩ := ParseUUIDv4_accept s id h
  have hid : id = decodedBytes s := by
    rw [← validateVersionVariant_fst (decodedBytes s), hv]
  rw [hid, String_eq_rendered _ (isBytes_decodedBytes s), rendered_decodedBytes s hl hb ha]

theorem C1_witness :
    ParseUUIDv4 sampleText = some (sampleUUID, none) ∧
    UUIDv4.String sampleUUID = some (sampleText.map toLowerByte) :=
  ⟨by decide, C1_String_ParseUUIDv4_eq_toLower sampleText sampleUUID (by decide)⟩

/-- C2 (case-insensitivity): for every string `s` that `ParseUUIDv4` accepts (nil
error), `ParseUUIDv4` of `s` with all letters upper-cased is accepted too and returns
the same identifier, byte for byte. -/
theorem C2_ParseUUIDv4_toUpper (s : List Nat) (id : UUIDv4)
    (h : ParseUUIDv4 s = some (id, none)) :
    ParseUUIDv4 (s.map toUpperByte) = some (id, none) := by
  obtain ⟨_, _, ha, _⟩ := ParseUUIDv4_accept s id h
  rw [← h, ParseUUIDv4_eq, ParseUUIDv4_eq, badDashes_toUpper, anyNonHex_toUpper,
    decodedBytes_toUpper s ha, List.length_map]

theorem C2_witness :
    ParseUUIDv4 sampleText = some (sampleUUID, none) ∧
    sampleText.map toUpperByte ≠ sampleText ∧
    ParseUUIDv4 (sampleText.map toUpperByte) = some (sampleUUID, none) :=
  ⟨by decide, by decide, C2_ParseUUIDv4_toUpper sampleText sampleUUID (by decide)⟩

/-- C3: for every entropy source and every pool state, whenever `NewUUIDv4` returns a nil
error, on the direct path (`NewUUIDv4Reader`) or on the pooled path
(`newUUIDv4FromPool`), the returned identifier `id` satisfies `id[6] & 0xF0 == 0x40` and
`id[8] & 0xC0 == 0x80`. -/
theorem C3_generated_version_variant (fuel : Nat) (w w1 : World) (id : UUIDv4)
    (h : NewUUIDv4 fuel w = Except.ok ((id, none), w1)) :
    id.getD 6 0 &&& 0xF0 = 0x40 ∧ id.getD 8 0 &&& 0xC0 = 0x80 := by
  obtain ⟨res, hl, rfl⟩ := NewUUIDv4_ok fuel w w1 id h
  exact setVersionVariant_bits res hl

theorem C3_witness :
    (NewUUIDv4 1 directWorld =
        Except.ok ((onesUUID, none), SetSource (byteReaderAt 1 16) directWorld) ∧
      onesUUID.getD 6 0 &&& 0xF0 = 0x40 ∧ onesUUID.getD 8 0 &&& 0xC0 = 0x80) ∧
    (NewUUIDv4 1 (pooledWorld 255) =
        Except.ok ((setVersionVariant (List.replicate 16 255), none),
          { randomSource := byteReaderAt 255 1024,
            pool := { buffer := some (List.replicate 1024 255), index := 16 } }) ∧
      (setVersionVariant (List.replicate 16 255)).getD 6 0 &&& 0xF0 = 0x40 ∧
      (setVersionVariant (List.replicate 16 255)).getD 8 0 &&& 0xC0 = 0x80) :=
  ⟨⟨rfl, C3_generated_version_variant 1 directWorld _ onesUUID rfl⟩,
    NewUUIDv4_pooledWorld 0 255,
    C3_generated_version_variant 1 (pooledWorld 255) _ _ (NewUUIDv4_pooledWorld 0 255)⟩

/-- C4: for every byte slice `b`, `FromBytes b` classifies by the first failing check in
the order length, version, variant. The error is `ErrMalformedUUIDv4` iff `len(b) != 16`;
otherwise it is `ErrInvalidUUIDv4Version` iff the high nibble of `b[6]` is not 4,
whatever `b[8]` is; otherwise it is `ErrInvalidUUIDv4Variant` iff the top bits of `b[8]`
are neither `10` nor `110`, which is a high nibble in 0-7 or e-f; otherwise it is nil. -/
theorem C4_FromBytes_classification (b : List Nat) (hb : IsBytes b) :
    ((FromBytes b).2 = some Error.ErrMalformedUUIDv4 ↔ b.length ≠ 16) ∧
    (b.length = 16 →
      ((FromBytes b).2 = some Error.ErrInvalidUUIDv4Version ↔ b.getD 6 0 / 16 ≠ 4) ∧
      (b.getD 6 0 / 16 = 4 →
        ((FromBytes b).2 = some Error.ErrInvalidUUIDv4Variant ↔
          ¬ (b.getD 8 0 / 64 = 2 ∨ b.getD 8 0 / 32 = 6)) ∧
        (¬ (b.getD 8 0 / 64 = 2 ∨ b.getD 8 0 / 32 = 6) ↔
          (b.getD 8 0 / 16 ≤ 7 ∨ 14 ≤ b.getD 8 0 / 16)) ∧
        ((b.getD 8 0 / 64 = 2 ∨ b.getD 8 0 / 32 = 6) → (FromBytes b).2 = none))) := by
  have h6 := getD_lt_of_isBytes b hb 6
  have h8 := getD_lt_of_isBytes b hb 8
  refine ⟨?_, ?_⟩
  · by_cases h : b.length = 16
    · rw [FromBytes_16 b h]
      have := validateVersionVariant_ne_malformed b
      exact ⟨fun e => absurd e this, fun e => absurd h e⟩
    · unfold FromBytes
      rw [if_pos h]
      exact ⟨fun _ => h, fun _ => rfl⟩
  · intro h
    rw [FromBytes_16 b h, validateVersionVariant_snd]
    generalize b.getD 6 0 = x6 at h6 ⊢
    generalize b.getD 8 0 = x8 at h8 ⊢
    refine ⟨?_, ?_⟩
    · by_cases h4 : x6 / 16 = 4
      · by_cases hv : x8 / 64 = 2 ∨ x8 / 32 = 6
        · rw [versionVariantError_none x6 x8 h6 h8 h4 hv]
          exact ⟨(by intro e; cases e), fun e => absurd h4 e⟩
        · rw [versionVariantError_variant x6 x8 h6 h8 h4 hv]
          exact ⟨(by intro e; cases e), fun e => absurd h4 e⟩
      · rw [versionVariantError_version x6 x8 h6 h4]
        exact ⟨fun _ => h4, fun _ => rfl⟩
    · intro h4
      refine ⟨?_, ?_, ?_⟩
      · by_cases hv : x8 / 64 = 2 ∨ x8 / 32 = 6
        · rw [versionVariantError_none x6 x8 h6 h8 h4 hv]
          exact ⟨(by intro e; cases e), fun e => absurd hv e⟩
        · rw [versionVariantError_variant x6 x8 h6 h8 h4 hv]
          exact ⟨fun _ => hv, fun _ => rfl⟩
      · omega
      · intro hv
        exact versionVariantError_none x6 x8 h6 h8 h4 hv

theorem C4_witness :
    IsBytes sampleUUID ∧ (FromBytes sampleUUID).2 = none :=
  ⟨by decide,
    ((C4_FromBytes_classification sampleUUID (by decide)).2 (by decide)).2
      (by decide) |>.2.2 (by decide)⟩

/-- C5: for every 16-byte slice `b` whose byte 6 has high nibble 4 and whose byte 8 has
top bits `10` or `110`, `FromBytes b` returns a nil error and an identifier whose 16
bytes are those of `b`, bytes 6 and 8 included. -/
theorem C5_FromBytes_valid (b : List Nat) (hb : IsBytes b) (hl : b.length = 16)
    (h6 : b.getD 6 0 / 16 = 4) (h8 : b.getD 8 0 / 64 = 2 ∨ b.getD 8 0 / 32 = 6) :
    FromBytes b = (b, none) := by
  have e6 := getD_lt_of_isBytes b hb 6
  have e8 := getD_lt_of_isBytes b hb 8
  rw [FromBytes_16 b hl]
  apply Prod.ext
  · exact validateVersionVariant_fst b
  · rw [validateVersionVariant_snd]
    exact versionVariantError_none _ _ e6 e8 h6 h8

theorem C5_witness :
    (IsBytes sampleUUID ∧ sampleUUID.length = 16 ∧ sampleUUID.getD 6 0 / 16 = 4 ∧
      (sampleUUID.getD 8 0 / 64 = 2 ∨ sampleUUID.getD 8 0 / 32 = 6)) ∧
    FromBytes sampleUUID = (sampleUUID, none) :=
  ⟨by decide, C5_FromBytes_valid sampleUUID (by decide) (by decide) (by decide) (by decide)⟩

/-- C6: for every string `s`, `ParseUUIDv4 s` returns (it does not panic on an
out-of-range index, the empty string included), and the error it returns is
`ErrMalformedUUIDv4` if and only if `s` is not structurally valid: its length is not
36, or one of the positions 8, 13, 18, 23 is not a dash, or one of the other 32
positions holds a byte outside `0-9`, `a-f`, `A-F`. -/
theorem C6_malformed_iff_not_structurallyValid (s : List Nat) :
    (∃ id err, ParseUUIDv4 s = some (id, err) ∧
      (err = some Error.ErrMalformedUUIDv4 ↔ ¬ StructurallyValid s)) ∧
    ParseUUIDv4 [] = some (zeroUUID, some Error.ErrMalformedUUIDv4) := by
  refine ⟨?_, by decide⟩
  rw [ParseUUIDv4_eq, structurallyValid_iff]
  by_cases h : s.length = 36
  · cases hb : badDashes s
    · cases ha : anyNonHex s
      · rw [if_neg (by simp [h]), if_neg (by simp)]
        refine ⟨(validateVersionVariant _).1, (validateVersionVariant _).2, rfl, ?_⟩
        have := validateVersionVariant_ne_malformed (decodedBytes s)
        simp [h, this]
      · rw [if_neg (by simp [h]), if_pos rfl]
        exact ⟨_, _, rfl, by simp [h]⟩
    · rw [if_pos (Or.inr rfl)]
      exact ⟨_, _, rfl, by simp [h]⟩
  · rw [if_pos (Or.inl h)]
    exact ⟨_, _, rfl, by simp [h]⟩

/-- C7: for every string `s`, `ParseUUIDv4 s` returns a nil error if and only if `s` has
exactly the shape `xxxxxxxx-xxxx-4xxx-Vxxx-xxxxxxxxxxxx`: structurally valid (length 36,
dashes at 8, 13, 18, 23, hex digits of either case elsewhere), the character at
position 14 is the literal `4`, and the character at position 19 is one of
`8 9 a b A B c d C D`. -/
theorem C7_accept_iff_shape (s : List Nat) :
    (∃ id, ParseUUIDv4 s = some (id, none)) ↔
      (StructurallyValid s ∧ s.getD 14 0 = versionChar ∧ s.getD 19 0 ∈ variantChars) := by
  constructor
  · rintro ⟨id, h⟩
    obtain ⟨hl, hb, ha, hv⟩ := ParseUUIDv4_accept s id h
    refine ⟨(structurallyValid_iff s).2 ⟨hl, hb, ha⟩, ?_⟩
    exact (decoded_error s ha).1.1 (by rw [hv])
  · rintro ⟨hv, h14, h19⟩
    obtain ⟨_, _, ha⟩ := (structurallyValid_iff s).1 hv
    refine ⟨decodedBytes s, ?_⟩
    rw [ParseUUIDv4_valid s hv]
    congr 1
    apply Prod.ext
    · exact validateVersionVariant_fst _
    · exact (decoded_error s ha).1.2 ⟨h14, h19⟩

/-- C8: for every structurally valid string `s`, `ParseUUIDv4 s` returns exactly the
identifier and the error that `FromBytes` returns on the 16 decoded bytes, byte `i`
being `16 * value(first digit of pair i) + value(second digit)` with the pairs taken
left to right and the dashes skipped. In particular, when the version character is
wrong the error is `ErrInvalidUUIDv4Version`, whatever the variant character is. -/
theorem C8_ParseUUIDv4_refines_FromBytes (s : List Nat) (hv : StructurallyValid s) :
    ParseUUIDv4 s = some (FromBytes (decodeSpec s)) ∧
    (s.getD 14 0 ≠ versionChar →
      ParseUUIDv4 s = some (decodeSpec s, some Error.ErrInvalidUUIDv4Version)) := by
  obtain ⟨_, _, ha⟩ := (structurallyValid_iff s).1 hv
  rw [ParseUUIDv4_valid s hv, decodeSpec_eq_decodedBytes s hv,
    FromBytes_16 _ (decodedBytes_length s)]
  refine ⟨rfl, fun h14 => ?_⟩
  congr 1
  apply Prod.ext
  · exact validateVersionVariant_fst _
  · exact (decoded_error s ha).2 h14

theorem C8_witness :
    (StructurallyValid bothWrongText ∧ bothWrongText.getD 14 0 ≠ versionChar ∧
      bothWrongText.getD 19 0 ∉ variantChars) ∧
    ParseUUIDv4 bothWrongText = some (FromBytes (decodeSpec bothWrongText)) ∧
    ParseUUIDv4 bothWrongText =
      some (decodeSpec bothWrongText, some Error.ErrInvalidUUIDv4Version) :=
  ⟨by decide,
    (C8_ParseUUIDv4_refines_FromBytes bothWrongText (by decide)).1,
    (C8_ParseUUIDv4_refines_FromBytes bothWrongText (by decide)).2 (by decide)⟩

/-- C9: for every 16-byte identifier `id`, valid or not, `id.String()` does not fail and
returns a text of exactly 36 bytes that has a dash at positions 8, 13, 18, 23 and nowhere
else, whose other characters are all in `0-9a-f`, and in which byte `k` of `id` is
rendered as two adjacent characters, high nibble first, the bytes 0-3, 4-5, 6-7, 8-9,
10-15 forming the five dash-separated groups in that order. -/
theorem C9_String_layout (id : UUIDv4) (_hl : id.length = 16) (hb : IsBytes id) :
    ∃ str, UUIDv4.String id = some str ∧ str.length = 36 ∧
      (∀ i < 36, (str.getD i 0 = dash ↔ i ∈ dashPositions)) ∧
      (∀ i < 36, i ∉ dashPositions → isLowerHexDigit (str.getD i 0) = true) ∧
      (∀ k < 16, str.getD (bytePosition k) 0 = hexDigit (id.getD k 0 / 16) ∧
        str.getD (bytePosition k + 1) 0 = hexDigit (id.getD k 0 % 16)) := by
  have A := rendered_cells id hb
  refine ⟨rendered id, String_eq_rendered id hb, rfl, ?_, ?_, ?_⟩
  · intro i hi
    interval_cases i
    · exact ⟨fun e => absurd e (A 0).1.1, fun e => absurd e (by decide)⟩
    · exact ⟨fun e => absurd e (A 0).2.1, fun e => absurd e (by decide)⟩
    · exact ⟨fun e => absurd e (A 1).1.1, fun e => absurd e (by decide)⟩
    · exact ⟨fun e => absurd e (A 1).2.1, fun e => absurd e (by decide)⟩
    · exact ⟨fun e => absurd e (A 2).1.1, fun e => absurd e (by decide)⟩
    · exact ⟨fun e => absurd e (A 2).2.1, fun e => absurd e (by decide)⟩
    · exact ⟨fun e => absurd e (A 3).1.1, fun e => absurd e (by decide)⟩
    · exact ⟨fun e => absurd e (A 3).2.1, fun e => absurd e (by decide)⟩
    · exact ⟨fun _ => by decide, fun _ => rfl⟩
    · exact ⟨fun e => absurd e (A 4).1.1, fun e => absurd e (by decide)⟩
    · exact ⟨fun e => absurd e (A 4).2.1, fun e => absurd e (by decide)⟩
    · exact ⟨fun e => absurd e (A 5).1.1, fun e => absurd e (by decide)⟩
    · exact ⟨fun e => absurd e (A 5).2.1, fun e => absurd e (by decide)⟩
    · exact ⟨fun _ => by decide, fun _ => rfl⟩
    · exact ⟨fun e => absurd e (A 6).1.1, fun e => absurd e (by decide)⟩
    · exact ⟨fun e => absurd e (A 6).2.1, fun e => absurd e (by decide)⟩
    · exact ⟨fun e => absurd e (A 7).1.1, fun e => absurd e (by decide)⟩
    · exact ⟨fun e => absurd e (A 7).2.1, fun e => absurd e (by decide)⟩
    · exact ⟨fun _ => by decide, fun _ => rfl⟩
    · exact ⟨fun e => absurd e (A 8).1.1, fun e => absurd e (by decide)⟩
    · exact ⟨fun e => absurd e (A 8).2.1, fun e => absurd e (by decide)⟩
    · exact ⟨fun e => absurd e (A 9).1.1, fun e => absurd e (by decide)⟩
    · exact ⟨fun e => absurd e (A 9).2.1, fun e => absurd e (by decide)⟩
    · exact ⟨fun _ => by decide, fun _ => rfl⟩
    · exact ⟨fun e => absurd e (A 10).1.1, fun e => absurd e (by decide)⟩
    · exact ⟨fun e => absurd e (A 10).2.1, fun e => absurd e (by decide)⟩
    · exact ⟨fun e => absurd e (A 11).1.1, fun e => absurd e (by decide)⟩
    · exact ⟨fun e => absurd e (A 11).2.1, fun e => absurd e (by decide)⟩
    · exact ⟨fun e => absurd e (A 12).1.1, fun e => absurd e (by decide)⟩
    · exact ⟨fun e => absurd e (A 12).2.1, fun e => absurd e (by decide)⟩
    · exact ⟨fun e => absurd e (A 13).1.1, fun e => absurd e (by decide)⟩
    · exact ⟨fun e => absurd e (A 13).2.1, fun e => absurd e (by decide)⟩
    · exact ⟨fun e => absurd e (A 14).1.1, fun e => absurd e (by decide)⟩
    · exact ⟨fun e => absurd e (A 14).2.1, fun e => absurd e (by decide)⟩
    · exact ⟨fun e => absurd e (A 15).1.1, fun e => absurd e (by decide)⟩
    · exact ⟨fun e => absurd e (A 15).2.1, fun e => absurd e (by decide)⟩
  · intro i hi
    interval_cases i
    · exact fun _ => (A 0).1.2
    · exact fun _ => (A 0).2.2
    · exact fun _ => (A 1).1.2
    · exact fun _ => (A 1).2.2
    · exact fun _ => (A 2).1.2
    · exact fun _ => (A 2).2.2
    · exact fun _ => (A 3).1.2
    · exact fun _ => (A 3).2.2
    · exact fun hn => (hn (by decide)).elim
    · exact fun _ => (A 4).1.2
    · exact fun _ => (A 4).2.2
    · exact fun _ => (A 5).1.2
    · exact fun _ => (A 5).2.2
    · exact fun hn => (hn (by decide)).elim
    · exact fun _ => (A 6).1.2
    · exact fun _ => (A 6).2.2
    · exact fun _ => (A 7).1.2
    · exact fun _ => (A 7).2.2
    · exact fun hn => (hn (by decide)).elim
    · exact fun _ => (A 8).1.2
    · exact fun _ => (A 8).2.2
    · exact fun _ => (A 9).1.2
    · exact fun _ => (A 9).2.2
    · exact fun hn => (hn (by decide)).elim
    · exact fun _ => (A 10).1.2
    · exact fun _ => (A 10).2.2
    · exact fun _ => (A 11).1.2
    · exact fun _ => (A 11).2.2
    · exact fun _ => (A 12).1.2
    · exact fun _ => (A 12).2.2
    · exact fun _ => (A 13).1.2
    · exact fun _ => (A 13).2.2
    · exact fun _ => (A 14).1.2
    · exact fun _ => (A 14).2.2
    · exact fun _ => (A 15).1.2
    · exact fun _ => (A 15).2.2
  · intro k hk
    interval_cases k <;> exact ⟨rfl, rfl⟩

theorem C9_witness :
    (sampleUUID.length = 16 ∧ IsBytes sampleUUID) ∧
    ∃ str, UUIDv4.String sampleUUID = some str ∧ str.length = 36 ∧
      (∀ i < 36, (str.getD i 0 = dash ↔ i ∈ dashPositions)) ∧
      (∀ i < 36, i ∉ dashPositions → isLowerHexDigit (str.getD i 0) = true) ∧
      (∀ k < 16, str.getD (bytePosition k) 0 = hexDigit (sampleUUID.getD k 0 / 16) ∧
        str.getD (bytePosition k + 1) 0 = hexDigit (sampleUUID.getD k 0 % 16)) :=
  ⟨by decide, C9_String_layout sampleUUID (by decide) (by decide)⟩

/-- C10: generation changes only the fixed fields. For every 16 bytes `r` that the
entropy source supplies, on the direct path (`io.ReadFull` leaves `r` in the array) and
on the pooled path (`pool.next` serves `r`, which after a refill is the first 16 bytes
that `io.ReadFull` left in the buffer), the returned identifier equals `r` in bytes 0-5,
7 and 9-15, has byte 6 equal to `0x40 | (r[6] & 0x0F)` and byte 8 equal to
`0x80 | (r[8] & 0x3F)`. Hence a source that always supplies the byte `b` yields, on both
paths, an identifier whose `String()` is the two hex digits of `b` repeated, except for
the version and variant nibbles; for `b = 0x01` it is
`01010101-0101-4101-8101-010101010101`. -/
theorem C10_generation_frame (fuel : Nat) (src : Reader) (w : World) (r : List Nat)
    (hr : r.length = 16) (b : Nat) (hb : b < 256) :
    (∀ n src1, ReadFull fuel src zeroUUID = Except.ok ((r, n, none), src1) →
      NewUUIDv4Reader fuel src = Except.ok ((setVersionVariant r, none), src1)) ∧
    (∀ w1, randomPool.next fuel w = Except.ok ((r, none), w1) →
      newUUIDv4FromPool fuel w = Except.ok ((setVersionVariant r, none), w1)) ∧
    (∀ b0 buf n src1, w.pool.buffer = some b0 → w.pool.index = b0.length →
      16 ≤ b0.length →
      ReadFull fuel w.randomSource b0 = Except.ok ((buf, n, none), src1) →
      newUUIDv4FromPool fuel w =
        Except.ok ((setVersionVariant (buf.take 16), none),
          { randomSource := src1, pool := { buffer := some buf, index := 16 } })) ∧
    ((setVersionVariant r).length = 16 ∧
      (∀ i < 16, i ≠ 6 → i ≠ 8 → (setVersionVariant r).getD i 0 = r.getD i 0) ∧
      (setVersionVariant r).getD 6 0 = 0x40 ||| (r.getD 6 0 &&& 0x0F) ∧
      (setVersionVariant r).getD 8 0 = 0x80 ||| (r.getD 8 0 &&& 0x3F)) ∧
    (NewUUIDv4Reader (fuel + 1) (byteReader b) =
        Except.ok ((setVersionVariant (List.replicate 16 b), none), byteReaderAt b 16) ∧
      NewUUIDv4 (fuel + 1) (pooledWorld b) =
        Except.ok ((setVersionVariant (List.replicate 16 b), none),
          { randomSource := byteReaderAt b 1024,
            pool := { buffer := some (List.replicate 1024 b), index := 16 } }) ∧
      UUIDv4.String (setVersionVariant (List.replicate 16 b)) = some (constantText b)) ∧
    (NewUUIDv4 1 directWorld =
        Except.ok ((onesUUID, none), SetSource (byteReaderAt 1 16) directWorld) ∧
      UUIDv4.String onesUUID = some onesText) := by
  obtain ⟨e6, e8, eo⟩ := setVersionVariant_getD r hr
  refine ⟨?_, ?_, ?_, ⟨?_, ?_, e6, e8⟩, ⟨?_, ?_, ?_⟩, rfl, by decide⟩
  · intro n src1 h
    exact NewUUIDv4Reader_of_ReadFull _ _ _ _ _ h
  · intro w1 h
    exact newUUIDv4FromPool_of_next _ _ _ _ h
  · intro b0 buf n src1 h1 h2 h3 h4
    exact newUUIDv4FromPool_of_next _ _ _ _ (next_refill _ _ _ _ _ _ h1 h2 h3 h4)
  · rw [setVersionVariant_length, hr]
  · intro i _ h6 h8
    exact eo i h6 h8
  · exact NewUUIDv4Reader_byteReader fuel b
  · exact NewUUIDv4_pooledWorld fuel b
  · exact String_constant b hb

theorem C10_witness :
    (onesUUID.length = 16 ∧ 1 < 256 ∧
      ReadFull 1 (byteReader 1) zeroUUID =
        Except.ok ((List.replicate 16 1, 16, none), byteReaderAt 1 16)) ∧
    NewUUIDv4Reader 1 (byteReader 1) =
      Except.ok ((setVersionVariant (List.replicate 16 1), none), byteReaderAt 1 16) ∧
    setVersionVariant (List.replicate 16 1) = onesUUID ∧
    NewUUIDv4 1 (pooledWorld 1) =
      Except.ok ((setVersionVariant (List.replicate 16 1), none),
        { randomSource := byteReaderAt 1 1024,
          pool := { buffer := some (List.replicate 1024 1), index := 16 } }) ∧
    UUIDv4.String (setVersionVariant (List.replicate 16 1)) = some (constantText 1) ∧
    constantText 1 = onesText :=
  ⟨⟨rfl, by decide, rfl⟩,
    (C10_generation_frame 1 (byteReader 1) (pooledWorld 1) (List.replicate 16 1) rfl 1
      (by decide)).1 16 (byteReaderAt 1 16) rfl,
    rfl,
    (C10_generation_frame 0 (byteReader 1) (pooledWorld 1) (List.replicate 16 1) rfl 1
      (by decide)).2.2.2.2.1.2.1,
    (C10_generation_frame 0 (byteReader 1) (pooledWorld 1) (List.replicate 16 1) rfl 1
      (by decide)).2.2.2.2.1.2.2,
    by decide⟩

/-- C11 (refill atomicity): for every enabled pool whose cursor equals its capacity, if
the entropy source fails during the refill then `pool.next`, and so `NewUUIDv4`, returns
that error and leaves the cursor equal to the capacity, the buffer still marked
exhausted. A following `NewUUIDv4` call with a source that succeeds then performs a
fresh full refill, returns a nil error, and serves the first 16 bytes of the new fill. -/
theorem C11_refill_atomic (fuel : Nat) (w : World) (b0 buf : List Nat) (n : Nat) (e : Error)
    (r1 : Reader) (hb : w.pool.buffer = some b0) (hi : w.pool.index = b0.length)
    (hr : ReadFull fuel w.randomSource b0 = Except.ok ((buf, n, some e), r1)) :
    randomPool.next fuel w =
      Except.ok ((zeroUUID, some e),
        { randomSource := r1, pool := { buffer := some buf, index := b0.length } }) ∧
    NewUUIDv4 fuel w =
      Except.ok ((zeroUUID, some e),
        { randomSource := r1, pool := { buffer := some buf, index := b0.length } }) ∧
    buf.length = b0.length ∧
    (∀ (fuel2 : Nat) (r2 r3 : Reader) (buf2 : List Nat) (n2 : Nat), 16 ≤ b0.length →
      ReadFull fuel2 r2 buf = Except.ok ((buf2, n2, none), r3) →
      NewUUIDv4 fuel2
          (SetSource r2
            { randomSource := r1, pool := { buffer := some buf, index := b0.length } }) =
        Except.ok ((setVersionVariant (buf2.take 16), none),
          { randomSource := r3, pool := { buffer := some buf2, index := 16 } })) := by
  have hn := next_refill_failed fuel w b0 buf n e r1 hb hi hr
  have hl : buf.length = b0.length := ReadFull_length _ _ _ _ _ hr
  refine ⟨hn, ?_, hl, ?_⟩
  · rw [NewUUIDv4_pooled fuel w b0 hb]
    exact newUUIDv4FromPool_of_failed _ _ _ _ _ hn
  · intro fuel2 r2 r3 buf2 n2 h16 h2
    rw [NewUUIDv4_pooled _ _ buf rfl]
    exact newUUIDv4FromPool_of_next _ _ _ _
      (next_refill fuel2 _ buf buf2 n2 r3 rfl hl.symm (by omega) h2)

theorem C11_witness :
    ((failingPooledWorld (Error.other 7)).pool.buffer = some (List.replicate 1024 0) ∧
      (failingPooledWorld (Error.other 7)).pool.index = (List.replicate 1024 0).length ∧
      ReadFull 1 (failingPooledWorld (Error.other 7)).randomSource (List.replicate 1024 0) =
        Except.ok ((List.replicate 1024 0, 0, some (Error.other 7)),
          errorReader (Error.other 7))) ∧
    NewUUIDv4 1 (failingPooledWorld (Error.other 7)) =
      Except.ok ((zeroUUID, some (Error.other 7)),
        { randomSource := errorReader (Error.other 7),
          pool := { buffer := some (List.replicate 1024 0),
                    index := (List.replicate 1024 0).length } }) ∧
    NewUUIDv4 1
        (SetSource (byteReader 1)
          { randomSource := errorReader (Error.other 7),
            pool := { buffer := some (List.replicate 1024 0),
                      index := (List.replicate 1024 0).length } }) =
      Except.ok ((setVersionVariant ((List.replicate (List.replicate 1024 0).length 1).take 16),
          none),
        { randomSource := byteReaderAt 1 (0 + (List.replicate 1024 0).length),
          pool := { buffer := some (List.replicate (List.replicate 1024 0).length 1),
                    index := 16 } }) :=
  have hi : (failingPooledWorld (Error.other 7)).pool.index =
      (List.replicate 1024 0).length := (length_replicate_1024 0).symm
  have hr : ReadFull 1 (failingPooledWorld (Error.other 7)).randomSource
      (List.replicate 1024 0) =
        Except.ok ((List.replicate 1024 0, 0, some (Error.other 7)),
          errorReader (Error.other 7)) :=
    ReadFull_errorReader 0 _ _ (by rw [length_replicate_1024]; decide)
  ⟨⟨rfl, hi, hr⟩,
    (C11_refill_atomic 1 (failingPooledWorld (Error.other 7)) _ _ 0 _ _ rfl hi hr).2.1,
    (C11_refill_atomic 1 (failingPooledWorld (Error.other 7)) _ _ 0 _ _ rfl hi hr).2.2.2
      1 (byteReader 1) _ _ _ (by rw [length_replicate_1024]; decide)
      (ReadFull_byteReaderAt 0 1 0 (List.replicate 1024 0))⟩

/-- C12 as stated fails: the source `fiveBytes` delivers five bytes and then fails with
`io.EOF` before 16 bytes are supplied (the loop of `io.ReadFull` ends with 5 bytes and
`io.EOF`), and `NewUUIDv4Reader` and `NewUUIDv4` return `io.ErrUnexpectedEOF`, which is
not that error. -/
theorem C12_counterexample :
    readLoop 16 2 fiveBytes zeroUUID 0 none =
      Except.ok ((fiveRead, 5, some Error.EOF), dataReader []) ∧
    NewUUIDv4Reader 2 fiveBytes =
      Except.ok ((fiveRead, some Error.ErrUnexpectedEOF), dataReader []) ∧
    NewUUIDv4 2 { randomSource := fiveBytes, pool := { buffer := none, index := 0 } } =
      Except.ok ((fiveRead, some Error.ErrUnexpectedEOF),
        { randomSource := dataReader [], pool := { buffer := none, index := 0 } }) ∧
    some Error.ErrUnexpectedEOF ≠ some Error.EOF :=
  ⟨rfl, rfl, rfl, by decide⟩

/-- C12 (amended): for every entropy source whose read fails with error `e` after `n`
bytes, `n` less than the requested number (16 on the direct path, the full buffer on a
pool refill), `NewUUIDv4Reader` and `NewUUIDv4` return `reportedError n e`: the error
`e` itself, except that `io.EOF` after at least one delivered byte is returned as
`io.ErrUnexpectedEOF`. In particular they return exactly `e` when `e` is not `io.EOF`
or when no byte was delivered. -/
theorem C12_error_propagation (fuel : Nat) (r r1 : Reader) (w : World) (b0 buf : List Nat)
    (n : Nat) (e : Error) :
    (readLoop 16 fuel r zeroUUID 0 none = Except.ok ((buf, n, some e), r1) → n < 16 →
      NewUUIDv4Reader fuel r = Except.ok ((buf, some (reportedError n e)), r1)) ∧
    (w.pool.buffer = none →
      readLoop 16 fuel w.randomSource zeroUUID 0 none = Except.ok ((buf, n, some e), r1) →
      n < 16 →
      NewUUIDv4 fuel w =
        Except.ok ((buf, some (reportedError n e)), { w with randomSource := r1 })) ∧
    (w.pool.buffer = some b0 → w.pool.index = b0.length →
      readLoop b0.length fuel w.randomSource b0 0 none = Except.ok ((buf, n, some e), r1) →
      n < b0.length →
      NewUUIDv4 fuel w =
        Except.ok ((zeroUUID, some (reportedError n e)),
          { randomSource := r1, pool := { buffer := some buf, index := b0.length } })) ∧
    ((e ≠ Error.EOF ∨ n = 0) → reportedError n e = e) ∧
    (e = Error.EOF → 0 < n → reportedError n e = Error.ErrUnexpectedEOF) := by
  refine ⟨?_, ?_, ?_, ?_, ?_⟩
  · intro h hn
    exact NewUUIDv4Reader_of_failed _ _ _ _ _ _ (ReadFull_failed _ _ _ _ _ _ _ h hn)
  · intro hb h hn
    rw [NewUUIDv4_direct fuel w hb,
      NewUUIDv4Reader_of_failed _ _ _ _ _ _ (ReadFull_failed _ _ _ _ _ _ _ h hn)]
  · intro hb hi h hn
    rw [NewUUIDv4_pooled fuel w b0 hb]
    exact newUUIDv4FromPool_of_failed _ _ _ _ _
      (next_refill_failed fuel w b0 buf n _ r1 hb hi (ReadFull_failed _ _ _ _ _ _ _ h hn))
  · intro h
    unfold reportedError
    rw [if_neg]
    rintro ⟨h1, h2⟩
    rcases h with h | h
    · exact h h2
    · omega
  · intro h1 h2
    unfold reportedError
    rw [if_pos ⟨h2, h1⟩]

theorem C12_witness :
    (readLoop 16 1 (errorReader (Error.other 7)) zeroUUID 0 none =
        Except.ok ((zeroUUID, 0, some (Error.other 7)), errorReader (Error.other 7)) ∧
      0 < 16) ∧
    NewUUIDv4Reader 1 (errorReader (Error.other 7)) =
      Except.ok ((zeroUUID, some (reportedError 0 (Error.other 7))),
        errorReader (Error.other 7)) ∧
    reportedError 0 (Error.other 7) = Error.other 7 ∧
    NewUUIDv4Reader 2 fiveBytes =
      Except.ok ((fiveRead, some (reportedError 5 Error.EOF)), dataReader []) ∧
    reportedError 5 Error.EOF = Error.ErrUnexpectedEOF :=
  ⟨⟨rfl, by decide⟩,
    (C12_error_propagation 1 (errorReader (Error.other 7)) (errorReader (Error.other 7))
      directWorld [] zeroUUID 0 (Error.other 7)).1 rfl (by decide),
    (C12_error_propagation 1 (errorReader (Error.other 7)) (errorReader (Error.other 7))
      directWorld [] zeroUUID 0 (Error.other 7)).2.2.2.1 (Or.inr rfl),
    (C12_error_propagation 2 fiveBytes (dataReader []) directWorld [] fiveRead 5
      Error.EOF).1 rfl (by decide),
    (C12_error_propagation 2 fiveBytes (dataReader []) directWorld [] fiveRead 5
      Error.EOF).2.2.2.2 rfl (by decide)⟩

/-- C13: pooling does not change which bytes become identifiers. For every never-failing
entropy source delivering the byte stream `s 0, s 1, ...`, in reads of any sizes, and a
freshly enabled pool, `n` calls of `NewUUIDv4` return, with nil errors, the fixed-field
rule applied to the stream bytes `16k .. 16k+15` for `k = 0 .. n-1`, which is the
sequence `NewUUIDv4` returns from the same stream with the pool disabled. The call after
`n` identifiers returns the identifier of the bytes `16n .. 16n+15`, so every stream
byte is used once and no buffer content is served twice; this includes the refill
between the 64th and the 65th identifier, where the cursor is 1024 and the buffer is
replaced by the stream bytes `1024 .. 2047`. -/
theorem C13_pooling_preserves_stream (s : Nat → Nat) (chunk : Nat → Nat → Nat)
    (fuel n : Nat) (hf : 1024 ≤ fuel) :
    pooledStreamAfter s chunk 0 = EnableRandomPool (directStreamAfter s chunk 0) ∧
    generate fuel n (pooledStreamAfter s chunk 0) =
      Except.ok ((List.range n).map (fun k => (streamUUID s k, none)),
        pooledStreamAfter s chunk n) ∧
    generate fuel n (directStreamAfter s chunk 0) =
      Except.ok ((List.range n).map (fun k => (streamUUID s k, none)),
        directStreamAfter s chunk n) ∧
    NewUUIDv4 fuel (pooledStreamAfter s chunk n) =
      Except.ok ((streamUUID s n, none), pooledStreamAfter s chunk (n + 1)) ∧
    NewUUIDv4 fuel (directStreamAfter s chunk n) =
      Except.ok ((streamUUID s n, none), directStreamAfter s chunk (n + 1)) ∧
    streamUUID s n = setVersionVariant (streamBytes s (16 * n) 16) ∧
    (pooledStreamAfter s chunk 64).pool =
      { buffer := some (streamBytes s 0 1024), index := 1024 } ∧
    (pooledStreamAfter s chunk 65).pool =
      { buffer := some (streamBytes s 1024 1024), index := 16 } :=
  ⟨rfl, generate_pooled s chunk fuel n hf, generate_direct s chunk fuel n (by omega),
    step_pooled s chunk fuel n hf, step_direct s chunk fuel n (by omega), rfl, rfl, rfl⟩

theorem C13_witness :
    1024 ≤ 1024 ∧
    generate 1024 65 (pooledStreamAfter countingStream shortReads 0) =
      Except.ok ((List.range 65).map (fun k => (streamUUID countingStream k, none)),
        pooledStreamAfter countingStream shortReads 65) ∧
    generate 1024 65 (directStreamAfter countingStream shortReads 0) =
      Except.ok ((List.range 65).map (fun k => (streamUUID countingStream k, none)),
        directStreamAfter countingStream shortReads 65) ∧
    NewUUIDv4 1024 (pooledStreamAfter countingStream shortReads 64) =
      Except.ok ((streamUUID countingStream 64, none),
        pooledStreamAfter countingStream shortReads (64 + 1)) ∧
    streamUUID countingStream 1 =
      [16, 17, 18, 19, 20, 21, 0x46, 23, 0x98, 25, 26, 27, 28, 29, 30, 31] :=
  ⟨by decide,
    (C13_pooling_preserves_stream countingStream shortReads 1024 65 (by decide)).2.1,
    (C13_pooling_preserves_stream countingStream shortReads 1024 65 (by decide)).2.2.1,
    (C13_pooling_preserves_stream countingStream shortReads 1024 64 (by decide)).2.2.2.1,
    by decide⟩

/-- C14: `EnableRandomPool` on a disabled pool yields a 1024-byte buffer with the cursor
equal to 1024, that is, marked empty so that the first request refills; on an already
enabled pool it is a no-op that leaves buffer contents and cursor unchanged; so enabling
twice equals enabling once. -/
theorem C14_EnableRandomPool (w : World) :
    (w.pool.buffer = none →
      EnableRandomPool w =
        { randomSource := w.randomSource,
          pool := { buffer := some (List.replicate 1024 0), index := 1024 } } ∧
      (List.replicate 1024 0).length = 1024 ∧
      (EnableRandomPool w).pool.index = ((EnableRandomPool w).pool.buffer.getD []).length) ∧
    (∀ b, w.pool.buffer = some b → EnableRandomPool w = w) ∧
    EnableRandomPool (EnableRandomPool w) = EnableRandomPool w := by
  refine ⟨?_, ?_, ?_⟩
  · intro h
    have e : EnableRandomPool w =
        { randomSource := w.randomSource,
          pool := { buffer := some (List.replicate 1024 0), index := 1024 } } := by
      unfold EnableRandomPool
      rw [h]
      rfl
    refine ⟨e, length_replicate_1024 0, ?_⟩
    rw [e]
    exact (length_replicate_1024 0).symm
  · intro b h
    unfold EnableRandomPool
    rw [h]
    rfl
  · cases h : w.pool.buffer with
    | none =>
      unfold EnableRandomPool
      rw [h]
      rfl
    | some b =>
      unfold EnableRandomPool
      rw [h]
      simp only [Option.isNone_some, Bool.false_eq_true, if_false, h]

theorem C14_witness :
    (directWorld.pool.buffer = none ∧ staleWorld.pool.buffer = some (List.replicate 1024 2)) ∧
    EnableRandomPool directWorld =
      { randomSource := directWorld.randomSource,
        pool := { buffer := some (List.replicate 1024 0), index := 1024 } } ∧
    EnableRandomPool staleWorld = staleWorld ∧
    EnableRandomPool (EnableRandomPool directWorld) = EnableRandomPool directWorld :=
  ⟨⟨rfl, rfl⟩, ((C14_EnableRandomPool directWorld).1 rfl).1,
    (C14_EnableRandomPool staleWorld).2.1 _ rfl, (C14_EnableRandomPool directWorld).2.2⟩

/-- C15: for every pool state, `DisableRandomPool` yields the disabled state: buffer
absent, cursor 0, `usingPool()` false, the source untouched; applying it twice gives the
same state as applying it once. After it `NewUUIDv4` takes the direct path, the call
`NewUUIDv4Reader(randomSource)`, which on success has read exactly 16 bytes from the
current entropy source. -/
theorem C15_DisableRandomPool (fuel : Nat) (w : World) :
    (DisableRandomPool w =
        { randomSource := w.randomSource, pool := { buffer := none, index := 0 } } ∧
      usingPool (DisableRandomPool w) = false) ∧
    DisableRandomPool (DisableRandomPool w) = DisableRandomPool w ∧
    NewUUIDv4 fuel (DisableRandomPool w) =
      (match NewUUIDv4Reader fuel w.randomSource with
       | Except.error f => Except.error f
       | Except.ok (out, r1) =>
         Except.ok (out, { randomSource := r1, pool := { buffer := none, index := 0 } })) ∧
    (∀ buf n r1, ReadFull fuel w.randomSource zeroUUID = Except.ok ((buf, n, none), r1) →
      n = 16 ∧
      NewUUIDv4 fuel (DisableRandomPool w) =
        Except.ok ((setVersionVariant buf, none),
          { randomSource := r1, pool := { buffer := none, index := 0 } })) ∧
    (∀ b count,
      NewUUIDv4 (fuel + 1) (DisableRandomPool (SetSource (byteReaderAt b count) w)) =
        Except.ok ((setVersionVariant (List.replicate 16 b), none),
          { randomSource := byteReaderAt b (count + 16),
            pool := { buffer := none, index := 0 } })) := by
  have hd : NewUUIDv4 fuel (DisableRandomPool w) =
      (match NewUUIDv4Reader fuel w.randomSource with
       | Except.error f => Except.error f
       | Except.ok (out, r1) =>
         Except.ok (out, { randomSource := r1, pool := { buffer := none, index := 0 } })) :=
    NewUUIDv4_direct fuel (DisableRandomPool w) rfl
  refine ⟨⟨rfl, rfl⟩, rfl, hd, ?_, ?_⟩
  · intro buf n r1 h
    exact ⟨ReadFull_ok_n _ _ _ _ _ _ h,
      NewUUIDv4_direct_ok fuel (DisableRandomPool w) buf n r1 rfl h⟩
  · intro b count
    exact NewUUIDv4_direct_ok (fuel + 1)
      (DisableRandomPool (SetSource (byteReaderAt b count) w)) _ 16 _ rfl
      (ReadFull_byteReaderAt fuel b count zeroUUID)

theorem C15_witness :
    DisableRandomPool staleWorld =
      { randomSource := byteReaderAt 2 1024, pool := { buffer := none, index := 0 } } ∧
    (ReadFull 1 staleWorld.randomSource zeroUUID =
        Except.ok ((List.replicate 16 2, 16, none), byteReaderAt 2 (1024 + 16)) ∧
      NewUUIDv4 1 (DisableRandomPool staleWorld) =
        Except.ok ((setVersionVariant (List.replicate 16 2), none),
          { randomSource := byteReaderAt 2 (1024 + 16),
            pool := { buffer := none, index := 0 } })) :=
  ⟨(C15_DisableRandomPool 1 staleWorld).1.1,
    ReadFull_byteReaderAt 0 2 1024 zeroUUID,
    ((C15_DisableRandomPool 1 staleWorld).2.2.2.1 _ 16 _
      (ReadFull_byteReaderAt 0 2 1024 zeroUUID)).2⟩

/-- C16 as stated fails: `staleWorld` is the state after one `NewUUIDv4` call on a freshly
enabled pool with source `byteReader{b: 2}`; the pool holds unread bytes `2`. After
`SetSource(byteReader{b: 1})` the next `NewUUIDv4` returns the identifier
`02020202-0202-4202-8202-020202020202`, built from buffered bytes of the previous source,
and the new source is not read at all (its `count` is still 0); 16 bytes of the new
source would have given `01010101-0101-4101-8101-010101010101`. -/
theorem C16_counterexample :
    NewUUIDv4 1 (pooledWorld 2) =
      Except.ok ((setVersionVariant (List.replicate 16 2), none), staleWorld) ∧
    NewUUIDv4 1 (SetSource (byteReader 1) staleWorld) =
      Except.ok ((twosUUID, none),
        { randomSource := byteReaderAt 1 0,
          pool := { buffer := some (List.replicate 1024 2), index := 16 + 16 } }) ∧
    NewUUIDv4Reader 1 (byteReader 1) =
      Except.ok ((onesUUID, none), byteReaderAt 1 16) ∧
    twosUUID ≠ onesUUID := by
  refine ⟨NewUUIDv4_pooledWorld 0 2, ?_, rfl, by decide⟩
  have h := NewUUIDv4_served 1 (SetSource (byteReader 1) staleWorld) (List.replicate 1024 2)
    rfl (by rw [length_replicate_1024]; decide) (by rw [length_replicate_1024]; decide)
  rw [h]
  have e : ((List.replicate 1024 2).drop (SetSource (byteReader 1) staleWorld).pool.index).take 16
      = List.replicate 16 2 := drop_take_replicate 2 16 (by decide)
  rw [e]
  rfl

/-- C16 (amended): replacing the entropy source takes effect for every later read of the
source. After `SetSource(r)`, on the direct path (pool disabled) and on the pooled path
when the buffer is exhausted (cursor equal to the capacity, as after
`EnableRandomPool`), the first identifier returned by `NewUUIDv4` is built from 16 bytes
supplied by `r`. When an enabled pool still holds unread buffered bytes, `NewUUIDv4`
serves the next 16 buffered bytes and does not read `r`. -/
theorem C16_SetSource_effect (fuel : Nat) (w : World) (r r1 : Reader) (b0 buf : List Nat)
    (n : Nat) :
    (w.pool.buffer = none →
      ReadFull fuel r zeroUUID = Except.ok ((buf, n, none), r1) →
      NewUUIDv4 fuel (SetSource r w) =
        Except.ok ((setVersionVariant buf, none),
          { randomSource := r1, pool := w.pool })) ∧
    (w.pool.buffer = some b0 → w.pool.index = b0.length → 16 ≤ b0.length →
      ReadFull fuel r b0 = Except.ok ((buf, n, none), r1) →
      NewUUIDv4 fuel (SetSource r w) =
        Except.ok ((setVersionVariant (buf.take 16), none),
          { randomSource := r1, pool := { buffer := some buf, index := 16 } })) ∧
    (w.pool.buffer = some b0 → w.pool.index ≠ b0.length → w.pool.index + 16 ≤ b0.length →
      NewUUIDv4 fuel (SetSource r w) =
        Except.ok ((setVersionVariant ((b0.drop w.pool.index).take 16), none),
          { randomSource := r,
            pool := { buffer := some b0, index := w.pool.index + 16 } })) := by
  refine ⟨?_, ?_, ?_⟩
  · intro hb h
    exact NewUUIDv4_direct_ok fuel (SetSource r w) buf n r1 hb h
  · intro hb hi h16 h
    exact NewUUIDv4_refilled fuel (SetSource r w) b0 buf n r1 hb hi h16 h
  · intro hb hi h16
    exact NewUUIDv4_served fuel (SetSource r w) b0 hb hi h16

theorem C16_witness :
    (directWorld.pool.buffer = none ∧
      ReadFull 1 (byteReader 2) zeroUUID =
        Except.ok ((List.replicate 16 2, 16, none), byteReaderAt 2 16)) ∧
    NewUUIDv4 1 (SetSource (byteReader 2) directWorld) =
      Except.ok ((setVersionVariant (List.replicate 16 2), none),
        { randomSource := byteReaderAt 2 16, pool := directWorld.pool }) ∧
    (staleWorld.pool.buffer = some (List.replicate 1024 2) ∧
      staleWorld.pool.index ≠ (List.replicate 1024 2).length ∧
      staleWorld.pool.index + 16 ≤ (List.replicate 1024 2).length) ∧
    NewUUIDv4 1 (SetSource (byteReader 1) staleWorld) =
      Except.ok
        ((setVersionVariant (((List.replicate 1024 2).drop staleWorld.pool.index).take 16),
          none),
          { randomSource := byteReader 1,
            pool := { buffer := some (List.replicate 1024 2),
                      index := staleWorld.pool.index + 16 } }) :=
  have h1 : staleWorld.pool.index ≠ (List.replicate 1024 2).length := by
    rw [length_replicate_1024]; decide
  have h2 : staleWorld.pool.index + 16 ≤ (List.replicate 1024 2).length := by
    rw [length_replicate_1024]; decide
  ⟨⟨rfl, rfl⟩,
    (C16_SetSource_effect 1 directWorld (byteReader 2) (byteReaderAt 2 16) []
      (List.replicate 16 2) 16).1 rfl rfl,
    ⟨rfl, h1, h2⟩,
    (C16_SetSource_effect 1 staleWorld (byteReader 1) (byteReader 1)
      (List.replicate 1024 2) [] 0).2.2 rfl h1 h2⟩

/-- C17 (batching): with a freshly enabled pool and a never-failing entropy source, after
`n` successful `NewUUIDv4` calls the source has supplied exactly `1024 * ceil(n / 64)`
bytes, against `16 * n` with the pool disabled. So the first call takes 1024 bytes from
the source, which is more than 16, the next 63 calls take none, and the 65th takes
another 1024. -/
theorem C17_batching (s : Nat → Nat) (chunk : Nat → Nat → Nat) (fuel n : Nat)
    (hf : 1024 ≤ fuel) :
    (generate fuel n (pooledStreamAfter s chunk 0) =
        Except.ok ((List.range n).map (fun k => (streamUUID s k, none)),
          pooledStreamAfter s chunk n) ∧
      (pooledStreamAfter s chunk n).randomSource =
        streamReader s chunk (1024 * ((n + 63) / 64)) ∧
      n ≤ 64 * ((n + 63) / 64) ∧ 64 * ((n + 63) / 64) < n + 64) ∧
    (generate fuel n (directStreamAfter s chunk 0) =
        Except.ok ((List.range n).map (fun k => (streamUUID s k, none)),
          directStreamAfter s chunk n) ∧
      (directStreamAfter s chunk n).randomSource = streamReader s chunk (16 * n)) ∧
    ((pooledStreamAfter s chunk 0).randomSource = streamReader s chunk 0 ∧
      (pooledStreamAfter s chunk 1).randomSource = streamReader s chunk 1024 ∧
      16 < 1024 ∧
      (∀ k, 1 ≤ k → k ≤ 64 →
        (pooledStreamAfter s chunk k).randomSource = streamReader s chunk 1024) ∧
      (pooledStreamAfter s chunk 65).randomSource = streamReader s chunk 2048) := by
  refine ⟨⟨generate_pooled s chunk fuel n hf, pooledStreamAfter_source s chunk n, by omega,
    by omega⟩, ⟨generate_direct s chunk fuel n (by omega), rfl⟩, rfl, rfl, by decide, ?_, rfl⟩
  intro k h1 h2
  rw [pooledStreamAfter_source]
  have e : (k + 63) / 64 = 1 := by omega
  rw [e]

theorem C17_witness :
    1024 ≤ 1024 ∧
    generate 1024 65 (pooledStreamAfter countingStream shortReads 0) =
      Except.ok ((List.range 65).map (fun k => (streamUUID countingStream k, none)),
        pooledStreamAfter countingStream shortReads 65) ∧
    (pooledStreamAfter countingStream shortReads 65).randomSource =
      streamReader countingStream shortReads (1024 * ((65 + 63) / 64)) ∧
    1024 * ((65 + 63) / 64) = 2048 ∧
    (directStreamAfter countingStream shortReads 65).randomSource =
      streamReader countingStream shortReads (16 * 65) :=
  ⟨by decide,
    (C17_batching countingStream shortReads 1024 65 (by decide)).1.1,
    (C17_batching countingStream shortReads 1024 65 (by decide)).1.2.1,
    by decide,
    (C17_batching countingStream shortReads 1024 65 (by decide)).2.1.2⟩

/-- C18 (pool cursor invariant): in every state reachable from the initial disabled state
by any sequence of `EnableRandomPool`, `DisableRandomPool`, `SetSource` and `NewUUIDv4`
calls, whether the entropy read succeeds or fails, the cursor satisfies
`0 <= index <= len(buffer)`, `index` is a multiple of 16 and `len(buffer)` is 0 or 1024;
and immediately after a successful refill the cursor is 0 before the slice is served:
`pool.next` continues as the serving step on the refilled 1024-byte buffer with cursor 0. -/
theorem C18_pool_cursor_invariant (w : World) (h : Reachable w) :
    w.pool.index ≤ (w.pool.buffer.getD []).length ∧ 16 ∣ w.pool.index ∧
    ((w.pool.buffer.getD []).length = 0 ∨ (w.pool.buffer.getD []).length = 1024) ∧
    (∀ fuel b0 buf n r1, w.pool.buffer = some b0 → w.pool.index = b0.length →
      ReadFull fuel w.randomSource b0 = Except.ok ((buf, n, none), r1) →
      buf.length = 1024 ∧
      randomPool.next fuel w =
        randomPool.serve
          { randomSource := r1, pool := { buffer := some buf, index := 0 } }) := by
  have hp := reachable_PoolInv w h
  refine ⟨?_, ?_, ?_, ?_⟩
  · rcases hp with ⟨hb, hi⟩ | ⟨b0, hb, hl, hi, _⟩
    · rw [hi]
      exact Nat.zero_le _
    · rw [hb, Option.getD_some, hl]
      exact hi
  · rcases hp with ⟨_, hi⟩ | ⟨b0, _, _, _, hd⟩
    · rw [hi]
      exact dvd_zero _
    · exact hd
  · rcases hp with ⟨hb, _⟩ | ⟨b0, hb, hl, _, _⟩
    · left
      rw [hb]
      rfl
    · right
      rw [hb, Option.getD_some, hl]
  · intro fuel b0 buf n r1 hb hi hr
    refine ⟨?_, next_refill_serve fuel w b0 buf n r1 hb hi hr⟩
    rcases hp with ⟨hb2, _⟩ | ⟨b1, hb2, hl, _, _⟩
    · rw [hb] at hb2
      cases hb2
    · rw [hb] at hb2
      cases hb2
      rw [ReadFull_length _ _ _ _ _ hr, hl]

theorem C18_witness :
    Reachable staleWorld ∧
    staleWorld.pool.index ≤ (staleWorld.pool.buffer.getD []).length ∧
    16 ∣ staleWorld.pool.index ∧
    ((staleWorld.pool.buffer.getD []).length = 0 ∨
      (staleWorld.pool.buffer.getD []).length = 1024) :=
  ⟨reachable_staleWorld,
    (C18_pool_cursor_invariant staleWorld reachable_staleWorld).1,
    (C18_pool_cursor_invariant staleWorld reachable_staleWorld).2.1,
    (C18_pool_cursor_invariant staleWorld reachable_staleWorld).2.2.1⟩

/-- C19 (pool slice safety): in every state reachable by sequential calls of the public
operations, `NewUUIDv4` invokes `pool.next` only when the buffer is present (with the
buffer absent it is the direct path), and at the copy in `pool.next` the range
`buffer[index : index+16]` lies within the buffer, both when the cursor is served as it
is and when it is 0 after a refill; so neither `pool.next` nor `NewUUIDv4` ends in the
out-of-range panic. By contrast `pool.next` on the disabled state (buffer absent,
cursor 0) does index out of range. -/
theorem C19_pool_slice_safety (fuel : Nat) (w : World) (h : Reachable w) :
    (usingPool w = false →
      NewUUIDv4 fuel w =
        match NewUUIDv4Reader fuel w.randomSource with
        | Except.error f => Except.error f
        | Except.ok (out, r1) => Except.ok (out, { w with randomSource := r1 })) ∧
    (∀ b0, w.pool.buffer = some b0 →
      (w.pool.index ≠ b0.length → w.pool.index + 16 ≤ b0.length) ∧ 0 + 16 ≤ b0.length ∧
      randomPool.next fuel w ≠ Except.error Fault.outOfRange) ∧
    NewUUIDv4 fuel w ≠ Except.error Fault.outOfRange ∧
    (∀ r : Reader,
      randomPool.next fuel { randomSource := r, pool := { buffer := none, index := 0 } } =
        Except.error Fault.outOfRange) := by
  have hp := reachable_PoolInv w h
  refine ⟨?_, ?_, ?_, fun r => next_disabled fuel r⟩
  · intro hu
    apply NewUUIDv4_direct
    unfold usingPool at hu
    cases hb : w.pool.buffer with
    | none => rfl
    | some b => rw [hb] at hu; cases hu
  · intro b0 hb
    rcases hp with ⟨hb2, _⟩ | ⟨b1, hb2, hl, hi, hd⟩
    · rw [hb] at hb2
      cases hb2
    · rw [hb] at hb2
      cases hb2
      refine ⟨?_, by omega, ?_⟩
      · intro hx
        obtain ⟨k, hk⟩ := hd
        omega
      · rcases next_cases fuel w b0 hb hl hi hd with hn | ⟨out, w1, hn, _⟩
        · rw [hn]
          intro hc
          cases hc
        · rw [hn]
          intro hc
          cases hc
  · rcases NewUUIDv4_cases fuel w hp with hn | ⟨out, w1, hn, _⟩
    · rw [hn]
      intro hc
      cases hc
    · rw [hn]
      intro hc
      cases hc

theorem C19_witness :
    Reachable staleWorld ∧
    (staleWorld.pool.index ≠ (List.replicate 1024 2).length →
      staleWorld.pool.index + 16 ≤ (List.replicate 1024 2).length) ∧
    randomPool.next 1 staleWorld ≠ Except.error Fault.outOfRange ∧
    NewUUIDv4 1 staleWorld ≠ Except.error Fault.outOfRange ∧
    randomPool.next 1 directWorld = Except.error Fault.outOfRange :=
  ⟨reachable_staleWorld,
    ((C19_pool_slice_safety 1 staleWorld reachable_staleWorld).2.1 _ rfl).1,
    ((C19_pool_slice_safety 1 staleWorld reachable_staleWorld).2.1 _ rfl).2.2,
    (C19_pool_slice_safety 1 staleWorld reachable_staleWorld).2.2.1,
    (C19_pool_slice_safety 1 staleWorld reachable_staleWorld).2.2.2 (byteReader 1)⟩

/-- C20 (parsing inverts rendering): for every 16-byte identifier `id`,
`ParseUUIDv4(id.String())` returns the same identifier and the same error as
`FromBytes(id[:])`; in particular for every `id` with version nibble 4 and variant bits
`10` or `110` it returns `id` itself with a nil error; and `String` is injective on
identifiers. -/
theorem C20_ParseUUIDv4_String (id : UUIDv4) (hl : id.length = 16) (hb : IsBytes id) :
    (∃ str, UUIDv4.String id = some str ∧ ParseUUIDv4 str = some (FromBytes id)) ∧
    (id.getD 6 0 / 16 = 4 → (id.getD 8 0 / 64 = 2 ∨ id.getD 8 0 / 32 = 6) →
      ∃ str, UUIDv4.String id = some str ∧ ParseUUIDv4 str = some (id, none)) ∧
    (∀ id2 : UUIDv4, id2.length = 16 → IsBytes id2 →
      UUIDv4.String id2 = UUIDv4.String id → id2 = id) := by
  refine ⟨⟨rendered id, String_eq_rendered id hb, ParseUUIDv4_rendered id hl hb⟩, ?_, ?_⟩
  · intro h6 h8
    refine ⟨rendered id, String_eq_rendered id hb, ?_⟩
    rw [ParseUUIDv4_rendered id hl hb, FromBytes_16 id hl]
    congr 1
    apply Prod.ext
    · exact validateVersionVariant_fst id
    · rw [validateVersionVariant_snd]
      exact versionVariantError_none _ _ (getD_lt_of_isBytes id hb 6)
        (getD_lt_of_isBytes id hb 8) h6 h8
  · intro id2 hl2 hb2 h
    rw [String_eq_rendered id hb, String_eq_rendered id2 hb2] at h
    have e := Option.some.inj h
    rw [← decodedBytes_rendered id hl hb, ← decodedBytes_rendered id2 hl2 hb2, e]

theorem C20_witness :
    (sampleUUID.length = 16 ∧ IsBytes sampleUUID ∧ sampleUUID.getD 6 0 / 16 = 4 ∧
      (sampleUUID.getD 8 0 / 64 = 2 ∨ sampleUUID.getD 8 0 / 32 = 6)) ∧
    (∃ str, UUIDv4.String sampleUUID = some str ∧
      ParseUUIDv4 str = some (FromBytes sampleUUID)) ∧
    (∃ str, UUIDv4.String sampleUUID = some str ∧ ParseUUIDv4 str = some (sampleUUID, none)) ∧
    (UUIDv4.String onesUUID = UUIDv4.String sampleUUID → onesUUID = sampleUUID) :=
  ⟨by decide,
    (C20_ParseUUIDv4_String sampleUUID (by decide) (by decide)).1,
    (C20_ParseUUIDv4_String sampleUUID (by decide) (by decide)).2.1 (by decide) (by decide),
    (C20_ParseUUIDv4_String sampleUUID (by decide) (by decide)).2.2 onesUUID (by decide)
      (by decide)⟩

end Goid
